import Mathlib

/-!
# Verification of the receipt-understanding pipeline

A shallow embedding of the OCR service (`backend/app/services/ocr_service.py`),
the extraction service (`backend/app/services/extraction_service.py`) and the
pipeline router (`backend/app/routers/belege.py`).

Modelling conventions:
* Python strings are `List Char`; Python slicing `s[a:b]` is `strSlice`.
* Python `int` and Tesseract coordinates are `Nat` (all quantities involved are
  non-negative); confidences are `Int` (Tesseract emits `-1`).
* `int(v * scale)` with `scale = orig / proc` (a Python float division) is
  modelled by the exact rational truncation `v * orig / proc` in `Nat`; any
  divergence would come only from IEEE-754 rounding of the scale factor, and no
  claim depends on pixel coordinates computed this way.
* Python dicts holding JSON data are association lists `List (String × PyVal)`;
  `dict.get(k)` is `pyGet` (a stored JSON `null` and an absent key both read
  back as `none`, exactly like Python's `None`).
* Fallible behaviour (`Option`) replaces exceptions where a caller inspects
  the outcome; the extraction HTTP call outcomes are reified by `CallOutcome`.
-/

namespace Steuer

/-! ## Python string primitives -/

/-- Python slicing `s[a:b]` for `0 ≤ a ≤ b ≤ len s` (the only regime used). -/
def strSlice (l : List Char) (s e : Nat) : List Char := (l.drop s).take (e - s)

/-- The characters Python's `str.strip()` / `\s` treat as whitespace
(ASCII range; the source texts are processed bytewise by Tesseract). -/
def isPyWs (c : Char) : Bool :=
  c == ' ' || c == '\t' || c == '\n' || c == '\r' || c == '\x0b' || c == '\x0c'

/-- `str.rstrip("\n")`: drop the trailing run of newline characters. -/
def rstripNl (l : List Char) : List Char :=
  (l.reverse.dropWhile (· == '\n')).reverse

/-- `str.strip()`: drop leading and trailing whitespace. -/
def pyStrip (l : List Char) : List Char :=
  ((l.dropWhile isPyWs).reverse.dropWhile isPyWs).reverse

/-- `str.lower()` (ASCII case folding; the pipeline's texts come from a
Latin-script OCR engine). -/
def pyLower (l : List Char) : List Char := l.map Char.toLower

/-- `haystack.find(needle)` scanning from position `i`. -/
def findFrom (hay needle : List Char) (i : Nat) : Option Nat :=
  if needle.isPrefixOf hay then some i
  else
    match hay with
    | [] => none
    | _ :: t => findFrom t needle (i + 1)

/-- Python `str.find`: first index at which `needle` occurs, `none` for `-1`.
`find` of the empty string returns `0` (as in CPython). -/
def strFind (hay needle : List Char) : Option Nat := findFrom hay needle 0

/-- Python `sep.join(parts)`. -/
def joinSep (sep : List Char) : List (List Char) → List Char
  | [] => []
  | [t] => t
  | t :: rest => t ++ sep ++ joinSep sep rest

/-! ## OCR service (`ocr_service.py`)

`_extract_page` (lines 64–152): strip each Tesseract token, scale its
coordinates back to original-image space, group tokens by `(block_num,
line_num)`, walk the keys in sorted order rebuilding the page text (space
between words of a line, newline after each line, an extra newline between
blocks), assigning each word its `char_start`/`char_end` into the running
offset counter; finally `rstrip("\n")` the assembled text. -/

/-- One raw Tesseract token of `image_to_data` (text plus geometry in the
processed image's pixel space and its `(block_num, line_num)` key). -/
structure RawToken where
  text : List Char
  left : Nat
  top : Nat
  width : Nat
  height : Nat
  conf : Int
  block : Nat
  line : Nat
deriving DecidableEq

/-- A stripped token with coordinates already scaled to original space. -/
structure Tok where
  text : List Char
  x : Nat
  y : Nat
  w : Nat
  h : Nat
  conf : Int
  block : Nat
  line : Nat
deriving DecidableEq

/-- A word of the OCR geometry (`{text,x,y,w,h,conf,char_start,char_end}`). -/
structure Word where
  text : List Char
  x : Nat
  y : Nat
  w : Nat
  h : Nat
  conf : Int
  charStart : Nat
  charEnd : Nat
deriving DecidableEq

/-- One page of OCR geometry. -/
structure PageG where
  page : Nat
  width : Nat
  height : Nat
  words : List Word
deriving DecidableEq

/-- `int(v * scale_x)` with `scale_x = orig / proc`, computed exactly. -/
def scaleCoord (v orig proc : Nat) : Nat := v * orig / proc

/-- The per-token loop of `_extract_page`: strip the text, skip empty tokens,
scale the geometry by `(scale_x, scale_y)` (lines 92–112). -/
def stripTokens (raw : List RawToken) (origW origH procW procH : Nat) : List Tok :=
  raw.filterMap fun r =>
    let txt := pyStrip r.text
    if txt = [] then none
    else some
      { text := txt
        x := scaleCoord r.left origW procW
        y := scaleCoord r.top origH procH
        w := scaleCoord r.width origW procW
        h := scaleCoord r.height origH procH
        conf := r.conf
        block := r.block
        line := r.line }

/-- The grouping key `(block_num, line_num)`. -/
def tokKey (t : Tok) : Nat × Nat := (t.block, t.line)

/-- Lexicographic order on keys, as produced by Python's `sorted`. -/
def pairLe (a b : Nat × Nat) : Prop := a.1 < b.1 ∨ (a.1 = b.1 ∧ a.2 ≤ b.2)

instance : DecidableRel pairLe := fun a b =>
  inferInstanceAs (Decidable (a.1 < b.1 ∨ (a.1 = b.1 ∧ a.2 ≤ b.2)))

/-- The distinct keys in sorted order (`sorted(lines.keys())`). -/
def sortedKeys (toks : List Tok) : List (Nat × Nat) :=
  List.insertionSort pairLe (toks.map tokKey).dedup

/-- The `lines` dict walked in sorted key order: each key paired with its
words in input order (Python appends to `lines[key]` in iteration order). -/
def groupsOf (toks : List Tok) : List ((Nat × Nat) × List Tok) :=
  (sortedKeys toks).map fun k => (k, toks.filter fun t => tokKey t == k)

/-- The inner loop over `line_words` (lines 128–136): a space before every
word but the first, then the word's text, recording `char_start`/`char_end`.
Returns the final offset, the emitted characters and the words. -/
def emitWords : Nat → Bool → List Tok → Nat × List Char × List Word
  | off, _, [] => (off, [], [])
  | off, isFirst, t :: rest =>
    let spc : List Char := if isFirst then [] else [' ']
    let cs := off + spc.length
    let ce := cs + t.text.length
    let w : Word :=
      { text := t.text, x := t.x, y := t.y, w := t.w, h := t.h
        conf := t.conf, charStart := cs, charEnd := ce }
    let r := emitWords ce false rest
    (r.1, spc ++ t.text ++ r.2.1, w :: r.2.2)

/-- The block separator (lines 121–124): an extra newline when the block
number changes and a previous block exists. -/
def blockSep (prevBlock : Option Nat) (blk : Nat) : List Char :=
  match prevBlock with
  | some pb => if blk ≠ pb then ['\n'] else []
  | none => []

/-- The outer loop over sorted keys (lines 119–140): an extra newline between
different blocks, the line's words, then a newline after every line. -/
def emitGroups : Nat → Option Nat → List ((Nat × Nat) × List Tok) →
    Nat × List Char × List Word
  | off, _, [] => (off, [], [])
  | off, prevBlock, (k, gtoks) :: rest =>
    let sep := blockSep prevBlock k.1
    let r₁ := emitWords (off + sep.length) true gtoks
    let r₂ := emitGroups (r₁.1 + 1) (some k.1) rest
    (r₂.1, sep ++ r₁.2.1 ++ '\n' :: r₂.2.1, r₁.2.2 ++ r₂.2.2)

/-- `emitGroups` with the per-group word lists kept separate: the contents of
the `lines` dict after the offset-assigning loop (each key's value is its
line's words carrying their final `char_start`/`char_end`). -/
def emitGroupsStruct : Nat → Option Nat → List ((Nat × Nat) × List Tok) →
    List ((Nat × Nat) × List Word)
  | _, _, [] => []
  | off, prevBlock, (k, gtoks) :: rest =>
    let sep := blockSep prevBlock k.1
    let r₁ := emitWords (off + sep.length) true gtoks
    (k, r₁.2.2) :: emitGroupsStruct (r₁.1 + 1) (some k.1) rest

/-- Pop the next unconsumed word of the entry with key `key` (there is one
entry per key: Python's `lines` is a dict). -/
def popFromGroups : List ((Nat × Nat) × List Word) → (Nat × Nat) →
    Option Word × List ((Nat × Nat) × List Word)
  | [], _ => (none, [])
  | (k, ws) :: rest, key =>
    if k = key then
      match ws with
      | [] => (none, (k, ws) :: rest)
      | w :: ws2 => (some w, (k, ws2) :: rest)
    else
      let r := popFromGroups rest key
      (r.1, (k, ws) :: r.2)

/-- The page's `words` list in the source's RAW TOKEN order: the token loop
appends each word dict to `words` as it reads the Tesseract output, and the
offset loop later mutates those dicts through `lines`, so the `i`-th token
with key `k` is the `i`-th word of the emitted group `k`. -/
def tokenOrderWords : List Tok → List ((Nat × Nat) × List Word) → List Word
  | [], _ => []
  | t :: rest, assoc =>
    match popFromGroups assoc (tokKey t) with
    | (some w, assoc2) => w :: tokenOrderWords rest assoc2
    | (none, assoc2) => tokenOrderWords rest assoc2

/-- Result of `_extract_page`: the page geometry, the page text and the
confidence values `> 0`. -/
structure PageResult where
  pageData : PageG
  text : List Char
  confs : List Int
deriving DecidableEq

/-- `_extract_page(img, page_num)` (lines 64–152). The `words` list keeps the
raw token order in which Python appends to `words`; the offsets are the ones
assigned during the sorted-`(block, line)` emission, reaching the list through
the shared dicts in `lines`. -/
def extractPage (raw : List RawToken) (origW origH procW procH pageNum : Nat) :
    PageResult :=
  let toks := stripTokens raw origW origH procW procH
  let r := emitGroups 0 none (groupsOf toks)
  let words := tokenOrderWords toks (emitGroupsStruct 0 none (groupsOf toks))
  { pageData := { page := pageNum, width := origW, height := origH, words := words }
    text := rstripNl r.2.1
    confs := (words.filter fun w => w.conf > 0).map (·.conf) }

/-- `PAGE_SEPARATOR = "\n\n--- Seite ---\n\n"` (line 10). -/
def pageSeparator : List Char := "\n\n--- Seite ---\n\n".toList

/-- OCR result: full text and per-page geometry (`text` / `data.pages`). -/
structure OcrResult where
  text : List Char
  pages : List PageG
deriving DecidableEq

/-- `_ocr_image` (lines 155–165): one page, `page_num = 1`. -/
def ocrImage (raw : List RawToken) (origW origH procW procH : Nat) : OcrResult :=
  let r := extractPage raw origW origH procW procH 1
  { text := r.text, pages := [r.pageData] }

/-- One rasterized PDF page handed to `_extract_page`. -/
structure PdfPageInput where
  raw : List RawToken
  origW : Nat
  origH : Nat
  procW : Nat
  procH : Nat
deriving DecidableEq

/-- Shift a word's character interval by the global page offset (lines 180–183;
the `if global_char_offset > 0` guard only skips the identity shift). -/
def shiftWord (off : Nat) (w : Word) : Word :=
  { w with charStart := w.charStart + off, charEnd := w.charEnd + off }

/-- The page loop of `_ocr_pdf` (lines 176–190): extract each page, shift its
word offsets by the running global offset, and advance the offset by the page
text's length plus the separator's length. -/
def ocrPdfAux : Nat → Nat → List PdfPageInput → List PageG × List (List Char)
  | _, _, [] => ([], [])
  | off, pnum, p :: rest =>
    let r := extractPage p.raw p.origW p.origH p.procW p.procH pnum
    let shifted : PageG := { r.pageData with words := r.pageData.words.map (shiftWord off) }
    let rec' := ocrPdfAux (off + r.text.length + pageSeparator.length) (pnum + 1) rest
    (shifted :: rec'.1, r.text :: rec'.2)

/-- `_ocr_pdf` (lines 168–199): pages numbered from 1, full text is the pages'
texts joined by `PAGE_SEPARATOR`. -/
def ocrPdf (pagesIn : List PdfPageInput) : OcrResult :=
  let r := ocrPdfAux 0 1 pagesIn
  { text := joinSep pageSeparator r.2, pages := r.1 }

/-! ## Image preprocessor (`_preprocess_image`, lines 30–61)

Steps 1 (grayscale), 2 (auto-contrast), 4 (sharpen) and 5 (binarize) preserve
the image's dimensions; only step 3 changes them, and its guard tests the
WIDTH `w` of `img.size = (w, h)` against 1500, not the shorter side. -/

/-- The dimensions `(width, height)` after `_preprocess_image`. -/
def preprocessDims (w h : Nat) : Nat × Nat :=
  if w < 1500 then (w * 2, h * 2) else (w, h)

/-! ## Extraction service (`extraction_service.py`): data model

JSON values as Python sees them. Booleans and arrays do not occur in the
extraction contract and are omitted; a stored JSON `null` is Python `None`. -/

inductive PyVal where
  | null : PyVal
  | s (v : List Char) : PyVal
  | num (v : ℚ) : PyVal
  | obj (fields : List (String × PyVal)) : PyVal

mutual

def pyValDecEq : (a b : PyVal) → Decidable (a = b)
  | .null, .null => isTrue rfl
  | .null, .s _ => isFalse (by intro h; exact PyVal.noConfusion h)
  | .null, .num _ => isFalse (by intro h; exact PyVal.noConfusion h)
  | .null, .obj _ => isFalse (by intro h; exact PyVal.noConfusion h)
  | .s _, .null => isFalse (by intro h; exact PyVal.noConfusion h)
  | .s x, .s y =>
    match decEq x y with
    | isTrue h => isTrue (by rw [h])
    | isFalse h => isFalse (by intro hh; injection hh; contradiction)
  | .s _, .num _ => isFalse (by intro h; exact PyVal.noConfusion h)
  | .s _, .obj _ => isFalse (by intro h; exact PyVal.noConfusion h)
  | .num _, .null => isFalse (by intro h; exact PyVal.noConfusion h)
  | .num _, .s _ => isFalse (by intro h; exact PyVal.noConfusion h)
  | .num x, .num y =>
    match decEq x y with
    | isTrue h => isTrue (by rw [h])
    | isFalse h => isFalse (by intro hh; injection hh; contradiction)
  | .num _, .obj _ => isFalse (by intro h; exact PyVal.noConfusion h)
  | .obj _, .null => isFalse (by intro h; exact PyVal.noConfusion h)
  | .obj _, .s _ => isFalse (by intro h; exact PyVal.noConfusion h)
  | .obj _, .num _ => isFalse (by intro h; exact PyVal.noConfusion h)
  | .obj xs, .obj ys =>
    match pyFieldsDecEq xs ys with
    | isTrue h => isTrue (by rw [h])
    | isFalse h => isFalse (by intro hh; injection hh; contradiction)

def pyFieldsDecEq : (a b : List (String × PyVal)) → Decidable (a = b)
  | [], [] => isTrue rfl
  | [], _ :: _ => isFalse (by intro h; exact List.noConfusion h)
  | _ :: _, [] => isFalse (by intro h; exact List.noConfusion h)
  | (k₁, v₁) :: r₁, (k₂, v₂) :: r₂ =>
    match decEq k₁ k₂, pyValDecEq v₁ v₂, pyFieldsDecEq r₁ r₂ with
    | isTrue h₁, isTrue h₂, isTrue h₃ => isTrue (by rw [h₁, h₂, h₃])
    | isFalse h₁, _, _ => isFalse (by
        intro hh
        injection hh with he _
        injection he with e₁ _
        exact h₁ e₁)
    | _, isFalse h₂, _ => isFalse (by
        intro hh
        injection hh with he _
        injection he with _ e₂
        exact h₂ e₂)
    | _, _, isFalse h₃ => isFalse (by
        intro hh
        injection hh with _ ht
        exact h₃ ht)

end

instance : DecidableEq PyVal := pyValDecEq

/-- A Python dict with `String` keys, in insertion order. -/
abbrev PyDict := List (String × PyVal)

/-- `d.get(k)`: `None` for a missing key and for a stored `null` alike. -/
def pyGet (d : PyDict) (k : String) : Option PyVal :=
  match d.find? (fun p => p.1 == k) with
  | none => none
  | some p =>
    match p.2 with
    | .null => none
    | v => some v

/-- `k in d`. -/
def hasKey (d : PyDict) (k : String) : Bool := d.any (fun p => p.1 == k)

/-- `d[k]` after a successful `k in d` check (defaults to `null`, unused). -/
def dictIndex (d : PyDict) (k : String) : PyVal :=
  match d.find? (fun p => p.1 == k) with
  | some p => p.2
  | none => .null

/-- `d[k] = v`: replace in place, else append (Python dict semantics). -/
def dictSet (d : PyDict) (k : String) (v : PyVal) : PyDict :=
  if d.any (fun p => p.1 == k) then
    d.map (fun p => if p.1 == k then (k, v) else p)
  else d ++ [(k, v)]

/-- Python truthiness of a value read by `pyGet` (`None`, `""`, `0` and the
empty dict are falsy). -/
def pyTruthy : Option PyVal → Bool
  | none => false
  | some .null => false
  | some (.s v) => !v.isEmpty
  | some (.num q) => q != 0
  | some (.obj l) => !l.isEmpty

/-- `str(value)`. A rational with denominator 1 renders without a decimal
point (JSON integers are Python ints); the Python repr of a nested dict is
not modelled (no claim depends on it). -/
def pyStr : PyVal → List Char
  | .null => "None".toList
  | .s v => v
  | .num q =>
    let sign : List Char := if q < 0 then ['-'] else []
    let n := |q|.num.toNat
    let d := |q|.den
    if d = 1 then sign ++ Nat.toDigits 10 n
    else
      sign ++ Nat.toDigits 10 (n / d) ++ ['.'] ++ Nat.toDigits 10 (n % d * 100 / d)
  | .obj _ => "dict".toList

/-- Python `float(s)` on a decimal literal (optional sign, digits, at most one
decimal point). Exponents, `inf`/`nan` and digit underscores are not modelled:
the pipeline's values are plain decimals. -/
def pyFloat (s : List Char) : Option ℚ :=
  let t := pyStrip s
  let (sign, t₂) : ℚ × List Char :=
    match t with
    | '-' :: r => (-1, r)
    | '+' :: r => (1, r)
    | r => (1, r)
  let ipart := t₂.takeWhile Char.isDigit
  let rest := t₂.dropWhile Char.isDigit
  let digitsVal : List Char → Nat :=
    fun l => l.foldl (fun a c => a * 10 + (c.toNat - '0'.toNat)) 0
  match rest with
  | [] => if ipart.isEmpty then none else some (sign * (digitsVal ipart : ℚ))
  | '.' :: fpart =>
    if fpart.all Char.isDigit && !(ipart.isEmpty && fpart.isEmpty) then
      some (sign * ((digitsVal ipart : ℚ) +
        (digitsVal fpart : ℚ) / ((10 : ℚ) ^ fpart.length)))
    else none
  | _ => none

/-- A pixel bounding box `{x, y, w, h, page}`. -/
structure BBoxG where
  x : Nat
  y : Nat
  w : Nat
  h : Nat
  page : Nat
deriving DecidableEq

/-- A provenance span `{start, end, text, feld}` with an optional bbox
(`stop` stands for the Python key `end`, a Lean keyword). -/
structure Span where
  start : Nat
  stop : Nat
  text : List Char
  feld : String
  bbox : Option BBoxG
deriving DecidableEq

/-! ## Quote Locator (`_locate_quote_in_text`, lines 176–211) -/

/-- `re.sub(r'\s+', ' ', text)`: collapse whitespace runs to single spaces
(state `prevWs`: inside a run that already emitted its space). -/
def collapseWsAux : Bool → List Char → List Char
  | _, [] => []
  | prevWs, c :: rest =>
    if isPyWs c then
      if prevWs then collapseWsAux true rest
      else ' ' :: collapseWsAux true rest
    else c :: collapseWsAux false rest

/-- `re.sub(r'\s+', ' ', text)`. -/
def collapseWs (l : List Char) : List Char := collapseWsAux false l

/-- `_normalize_text` (lines 214–216). -/
def normalizeText (t : List Char) : List Char := pyLower (pyStrip (collapseWs t))

/-- The whitespace tuple `(' ', '\t', '\n', '\r')` of `_map_normalized_pos`
(narrower than `\s`). -/
def isWs4 (c : Char) : Bool := c == ' ' || c == '\t' || c == '\n' || c == '\r'

/-- The `while` loop of `_map_normalized_pos` (lines 224–241): walk the
normalized and original strings in lockstep, traversing collapsed whitespace
runs together. -/
def mapNormAux (original normalized : List Char) (normStart normLen : Nat)
    (normPos origPos : Nat) (origStart : Option Nat) : Nat × Nat :=
  if h : normPos < normalized.length ∧ origPos < original.length then
    let origStart₂ :=
      if normPos = normStart ∧ origStart = none then some origPos else origStart
    if normPos = normStart + normLen then
      (origStart₂.getD 0, origPos)
    else
      let nc := normalized.getD normPos 'x'
      let oc := original.getD origPos 'x'
      if nc = ' ' ∧ isWs4 oc then
        mapNormAux original normalized normStart normLen (normPos + 1)
          (origPos + ((original.drop origPos).takeWhile isWs4).length) origStart₂
      else
        mapNormAux original normalized normStart normLen (normPos + 1)
          (origPos + 1) origStart₂
  else
    match origStart with
    | some st => (st, origPos)
    | none => (0, min normLen original.length)
termination_by normalized.length - normPos
decreasing_by
  · omega
  · omega

/-- `_map_normalized_pos` (lines 219–244). -/
def mapNormalizedPos (original normalized : List Char) (normStart normLen : Nat) :
    Nat × Nat :=
  mapNormAux original normalized normStart normLen 0 0 none

/-- The adjacent character pairs of a string (2-character slices). -/
def bigramList : List Char → List (Char × Char)
  | a :: b :: rest => (a, b) :: bigramList (b :: rest)
  | _ => []

/-- `_bigrams` (lines 298–300): the SET of bigrams, here the deduplicated
list (empty for strings shorter than 2, as in the source's explicit guard). -/
def bigrams (s : List Char) : List (Char × Char) := (bigramList s).dedup

/-- The candidate window sizes (lines 268–274): `sorted(set([...]))` where
`int(qlen * 0.9)` etc. are modelled by exact truncation `qlen * 9 / 10`. -/
def windowSizes (tlen qlen : Nat) : List Nat :=
  List.insertionSort (· ≤ ·)
    ([qlen, max 3 (qlen * 9 / 10), min tlen (qlen * 11 / 10),
      max 3 (qlen * 8 / 10), min tlen (qlen * 12 / 10)].dedup)

/-- All windows in iteration order: sizes ascending (outer loop, skipping
sizes larger than the text), start positions ascending (inner loop). -/
def candWindows (tlen : Nat) (sizes : List Nat) : List (Nat × Nat) :=
  sizes.bind fun ws =>
    if ws > tlen then []
    else (List.range (tlen - ws + 1)).map fun i => (i, i + ws)

/-- The iteration order of the sliding-window loops: window SIZE ascending
(outer loop), start position ascending (inner loop). -/
def windowLex (u v : Nat × Nat) : Prop :=
  u.2 - u.1 < v.2 - v.1 ∨ (u.2 - u.1 = v.2 - v.1 ∧ u.1 < v.1)

/-- Dice score of one candidate window against the quote's bigram set
(lines 280–287); `none` when the candidate has no bigrams (the `continue`). -/
def diceScore (qB : List (Char × Char)) (cand : List Char) : Option ℚ :=
  let cB := bigrams cand
  if cB.isEmpty then none
  else some (2 * ((cB.filter (fun b => qB.contains b)).length : ℚ) /
    ((qB.length : ℚ) + (cB.length : ℚ)))

/-- One iteration of the sliding-window loop (lines 280–291): keep the
candidate only on a STRICT improvement of the best ratio. -/
def fuzzyStep (textLower : List Char) (qB : List (Char × Char))
    (st : ℚ × Option (Nat × Nat)) (c : Nat × Nat) : ℚ × Option (Nat × Nat) :=
  match diceScore qB (strSlice textLower c.1 c.2) with
  | none => st
  | some r => if st.1 < r then (r, some c) else st

/-- `_fuzzy_slide_match` (lines 247–295). The float threshold `0.80` is the
exact rational `4/5`; all Dice scores have small denominators, far from the
half-ulp region where IEEE-754 rounding could flip the comparison. -/
def fuzzySlideMatch (ocrText quote : List Char) (threshold : ℚ) :
    Option (Nat × Nat) :=
  let qlen := quote.length
  if qlen < 5 ∨ ocrText.length < qlen then none
  else
    let textLower := pyLower ocrText
    let qB := bigrams (pyLower quote)
    if qB.isEmpty then none
    else
      let r := (candWindows ocrText.length (windowSizes ocrText.length qlen)).foldl
        (fuzzyStep textLower qB) (0, none)
      if threshold ≤ r.1 ∧ r.2.isSome then r.2 else none

/-- `_locate_quote_in_text` (lines 176–211): the four-tier cascade. -/
def locateQuoteInText (ocrText quote : List Char) (feld : String) : Option Span :=
  match strFind ocrText quote with
  | some idx => some ⟨idx, idx + quote.length, quote, feld, none⟩
  | none =>
    match strFind (pyLower ocrText) (pyLower quote) with
    | some idx =>
      some ⟨idx, idx + quote.length,
        strSlice ocrText idx (idx + quote.length), feld, none⟩
    | none =>
      let normQuote := normalizeText quote
      let normOcr := normalizeText ocrText
      match strFind normOcr normQuote with
      | some normIdx =>
        let p := mapNormalizedPos ocrText normOcr normIdx normQuote.length
        some ⟨p.1, p.2, strSlice ocrText p.1 p.2, feld, none⟩
      | none =>
        if 5 ≤ quote.length then
          match fuzzySlideMatch ocrText quote (4/5) with
          | some (s, e) => some ⟨s, e, strSlice ocrText s e, feld, none⟩
          | none => none
        else none

/-- `_build_source_spans_from_quotes` (lines 156–173): skip quotes whose
stripped length is below 2 (all values are strings here, so the
`isinstance` test is vacuous), locate the stripped quote. -/
def buildSourceSpansFromQuotes (ocrText : List Char)
    (quotes : List (String × List Char)) : List Span :=
  quotes.filterMap fun kv =>
    if kv.2.isEmpty || decide ((pyStrip kv.2).length < 2) then none
    else locateQuoteInText ocrText (pyStrip kv.2) kv.1

/-! ## Fallback grounding (`_build_source_spans`, lines 307–366) -/

/-- `str.split()` (split on whitespace runs, no empty parts). -/
def pySplitAux : List Char → List Char → List (List Char)
  | [], acc => if acc.isEmpty then [] else [acc.reverse]
  | c :: rest, acc =>
    if isPyWs c then
      if acc.isEmpty then pySplitAux rest []
      else acc.reverse :: pySplitAux rest []
    else pySplitAux rest (c :: acc)

def pySplit (l : List Char) : List (List Char) := pySplitAux l []

/-- `re.match(r'^\d+\.?\d*$', s)`: digits, an optional dot, more digits. -/
def matchesNumPattern (s : List Char) : Bool :=
  let d1 := s.takeWhile Char.isDigit
  let r := s.dropWhile Char.isDigit
  !d1.isEmpty && (r.isEmpty || (r.head? == some '.' && (r.drop 1).all Char.isDigit))

/-- Round half to even (Python `round`; the source rounds a value in `[0,1)`
to 2 decimals — IEEE-754 artefacts of the float version are not modelled,
no claim depends on this rendering). -/
def roundHalfEven (q : ℚ) : Int :=
  let fl := ⌊q⌋
  let fr := q - fl
  if fr < 1/2 then fl
  else if fr > 1/2 then fl + 1
  else if fl % 2 = 0 then fl else fl + 1

/-- Insert thousands dots every three digits from the right
(`f"{n:,}".replace(",", ".")`); input is the reversed digit list. -/
def thousandsAux : List Char → List Char
  | d₁ :: d₂ :: d₃ :: d₄ :: rest => d₁ :: d₂ :: d₃ :: '.' :: thousandsAux (d₄ :: rest)
  | l => l

/-- `_to_german_number` (lines 369–381): `1234.56 → 1.234,56`. -/
def toGermanNumber (n : List Char) : List Char :=
  match pyFloat n with
  | none => n
  | some f =>
    let ip : Int := f.num / f.den
    let k := roundHalfEven ((f - ip) * 100)
    let formattedInt := (thousandsAux (Nat.toDigits 10 ip.toNat).reverse).reverse
    if 0 < k then
      let kk := (k % 100).toNat
      let decStr := if kk < 10 then '0' :: Nat.toDigits 10 kk else Nat.toDigits 10 kk
      formattedInt ++ [','] ++ decStr
    else formattedInt ++ ",00".toList

/-- `[\s\-]` of the two-word issuer pattern. -/
def isSepWsDash (c : Char) : Bool := isPyWs c || c == '-'

/-- Backtracking over the greedy `[\s\-]+`: try the longest separator run
first, then shorter ones, needing at least one separator character. -/
def trySepLens (tl w1 : List Char) (after : Nat) : Nat → Option Nat
  | 0 => none
  | Nat.succ j =>
    if w1.isPrefixOf (tl.drop (after + j + 1)) then some (after + j + 1 + w1.length)
    else trySepLens tl w1 after j

/-- Match `w0[\s\-]+w1` at position `i` of the lowered text; returns the end
position. -/
def twoWordMatchAt (tl w0 w1 : List Char) (i : Nat) : Option Nat :=
  if w0.isPrefixOf (tl.drop i) then
    trySepLens tl w1 (i + w0.length) ((tl.drop (i + w0.length)).takeWhile isSepWsDash).length
  else none

/-- `re.search(escape(w0) + r'[\s\-]+' + escape(w1), ocr_text, IGNORECASE)`
(lines 359–364): leftmost match, case-insensitive (ASCII lowering). -/
def twoWordSearch (ocrText valueStr : List Char) : Option (Nat × Nat) :=
  match pySplit valueStr with
  | w0 :: w1 :: _ =>
    let tl := pyLower ocrText
    (List.range (tl.length + 1)).findSome? fun i =>
      (twoWordMatchAt tl (pyLower w0) (pyLower w1) i).map fun e => (i, e)
  | _ => none

/-- The spans the fallback loop appends for one field whose exact search
failed (lines 332–364): the German-number block (with its `for … else`) and
the case-insensitive text block both run. -/
def fallbackSpanFor (ocrText textLower : List Char) (feld : String)
    (valueStr : List Char) : List Span :=
  let numeric : List Span :=
    if matchesNumPattern valueStr then
      let german := toGermanNumber valueStr
      match strFind ocrText german with
      | some idx => [⟨idx, idx + german.length, german, feld, none⟩]
      | none =>
        let swapped := valueStr.map fun c => if c == '.' then ',' else c
        match strFind ocrText swapped with
        | some idx => [⟨idx, idx + swapped.length, swapped, feld, none⟩]
        | none =>
          let ipart := valueStr.takeWhile fun c => c != '.'
          let rest := valueStr.dropWhile fun c => c != '.'
          let simple := ipart ++ [','] ++
            (if rest.isEmpty then "00".toList else rest.drop 1)
          match strFind ocrText simple with
          | some idx => [⟨idx, idx + simple.length, simple, feld, none⟩]
          | none => []
    else []
  let textSpans : List Span :=
    if feld = "aussteller" ∨ feld = "rechnungsnummer" ∨ feld = "beschreibung" then
      match strFind textLower (pyLower valueStr) with
      | some idx => [⟨idx, idx + valueStr.length,
          strSlice ocrText idx (idx + valueStr.length), feld, none⟩]
      | none =>
        if feld = "aussteller" ∧ 5 < valueStr.length then
          match twoWordSearch ocrText valueStr with
          | some (s, e) => [⟨s, e, strSlice ocrText s e, feld, none⟩]
          | none => []
        else []
    else []
  numeric ++ textSpans

/-- The nine fields the fallback searches (lines 313–323). -/
def fallbackSearchFields : List String :=
  ["aussteller", "betrag_brutto", "betrag_netto", "mwst_betrag", "datum_beleg",
   "rechnungsnummer", "arbeitskosten_35a", "materialkosten", "beschreibung"]

/-- `_build_source_spans` (lines 307–366). -/
def buildSourceSpans (ocrText : List Char) (attrs : PyDict) : List Span :=
  let textLower := pyLower ocrText
  fallbackSearchFields.bind fun feld =>
    match pyGet attrs feld with
    | none => []
    | some v =>
      let valueStr := pyStr v
      if valueStr.isEmpty || valueStr = "null".toList then []
      else
        match strFind ocrText valueStr with
        | some idx => [⟨idx, idx + valueStr.length, valueStr, feld, none⟩]
        | none => fallbackSpanFor ocrText textLower feld valueStr

/-! ## Confidence assessment (`_assess_confidence`, lines 388–419) -/

def requiredFields : List String :=
  ["beleg_typ", "betrag_brutto", "aussteller", "datum_beleg"]

def groundedKeyFields : List String :=
  ["betrag_brutto", "aussteller", "datum_beleg"]

/-- `_assess_confidence(attrs, spans)`. -/
def assessConfidence (attrs : PyDict) (spans : List Span) : String :=
  let found := (requiredFields.filter fun f => (pyGet attrs f).isSome).length
  let grounded := spans.map (·.feld)
  let groundedCount := (groundedKeyFields.filter fun f => grounded.contains f).length
  if pyGet attrs "beleg_typ" = some (.s "kassenbon".toList) then
    if 3 ≤ found ∧ 1 ≤ groundedCount then "hoch"
    else if 2 ≤ found then "mittel"
    else "niedrig"
  else
    if 4 ≤ found ∧ 2 ≤ groundedCount then "hoch"
    else if 3 ≤ found then "mittel"
    else if 2 ≤ found then "mittel"
    else "niedrig"

/-! ## Vision merge (`_merge_extractions`, lines 579–615) -/

/-- The eight key fields the vision pass may fill (lines 598–599). -/
def keyFields : List String :=
  ["aussteller", "betrag_brutto", "datum_beleg", "mwst_satz",
   "mwst_betrag", "rechnungsnummer", "beleg_typ", "beschreibung"]

/-- `_merge_extractions(tesseract_data, vision_data)`; the caller's falsy
test on a `None` vision result is handled at the call site, the empty-dict
case here. -/
def mergeExtractions (tesseractData visionData : PyDict) : PyDict × Bool :=
  if visionData.isEmpty then (tesseractData, false)
  else
    let r := keyFields.foldl
      (fun (acc : PyDict × List String) field =>
        match pyGet tesseractData field, pyGet visionData field with
        | none, some visVal => (dictSet acc.1 field visVal, acc.2 ++ [field])
        | _, _ => acc)
      (tesseractData, [])
    if r.2.isEmpty then (r.1, false) else (r.1, true)

/-! ## Auto-Kontierung (`KONTIERUNG_MAP` / `auto_kontierung`, lines 622–642) -/

def kontierungMap : List (String × String × String × String) :=
  [("handwerkerrechnung", "4946", "Fremdleistungen", "3"),
   ("rechnung", "4900", "Sonst. betriebl. Aufwend.", "3"),
   ("spendenbescheinigung", "6300", "Sonst. betriebl. Aufwend.", ""),
   ("bewirtungsbeleg", "4650", "Bewirtungskosten", "3"),
   ("fahrtkosten", "4500", "Fahrzeugkosten", ""),
   ("arztrechnung", "4900", "Sonst. betriebl. Aufwend.", ""),
   ("versicherungsnachweis", "4300", "Versicherungen", ""),
   ("nebenkostenabrechnung", "4210", "Miete", ""),
   ("lohnsteuerbescheinigung", "4120", "Gehälter", ""),
   ("kassenbon", "4900", "Sonst. betriebl. Aufwend.", "2")]

/-- `auto_kontierung(beleg_typ, mwst_satz)`: a non-string document kind falls
through to the generic entry, as `dict.get` would. -/
def autoKontierung (belegTyp : PyVal) (mwstSatz : Option ℚ) : PyDict :=
  let entry : String × String × String :=
    match belegTyp with
    | .s bt =>
      (match kontierungMap.find? (fun p => p.1.toList == bt) with
       | some p => p.2
       | none => ("4900", "Sonst. betriebl. Aufwend.", ""))
    | _ => ("4900", "Sonst. betriebl. Aufwend.", "")
  let bu := entry.2.2
  let bu₂ :=
    match mwstSatz with
    | some r =>
      if r ≠ 0 ∧ bu.isEmpty then
        (if 15 ≤ r then "3" else if 5 ≤ r then "2" else "")
      else bu
    | none => bu
  [("skr03_konto", .s entry.1.toList),
   ("skr03_bezeichnung", .s entry.2.1.toList),
   ("bu_schluessel", .s bu₂.toList)]

/-! ## BBox enrichment (`_enrich_spans_with_bboxes`, lines 649–716) -/

/-- A word annotated with its page (the flat `all_words` list; every word of
the OCR service carries `char_start`/`char_end`, so the key guard of line 666
is always true). -/
structure FlatWord where
  text : List Char
  x : Nat
  y : Nat
  w : Nat
  h : Nat
  conf : Int
  charStart : Nat
  charEnd : Nat
  page : Nat
deriving DecidableEq

def flattenWords (pages : List PageG) : List FlatWord :=
  pages.bind fun pg => pg.words.map fun w =>
    ⟨w.text, w.x, w.y, w.w, w.h, w.conf, w.charStart, w.charEnd, pg.page⟩

/-- `min(...)` over a nonempty list (0 on the impossible empty case). -/
def listMin : List Nat → Nat
  | [] => 0
  | x :: rest => rest.foldl Nat.min x

/-- `max(...)` over a nonempty list. -/
def listMax : List Nat → Nat
  | [] => 0
  | x :: rest => rest.foldl Nat.max x

/-- The words overlapping a span: `w_start < span_end ∧ w_end > span_start`
(line 687). -/
def matchingWords (allWords : List FlatWord) (span : Span) : List FlatWord :=
  allWords.filter fun w => decide (w.charStart < span.stop) &&
    decide (span.start < w.charEnd)

/-- Enrich one span (lines 673–712): union bbox over the overlapping words,
page taken from the FIRST overlapping word. -/
def enrichOne (allWords : List FlatWord) (span : Span) : Span :=
  match matchingWords allWords span with
  | [] => span
  | m :: _ =>
    let ws := matchingWords allWords span
    let minX := listMin (ws.map (·.x))
    let minY := listMin (ws.map (·.y))
    let maxRight := listMax (ws.map fun w => w.x + w.w)
    let maxBottom := listMax (ws.map fun w => w.y + w.h)
    { span with bbox := some ⟨minX, minY, maxRight - minX, maxBottom - minY, m.page⟩ }

/-- `_enrich_spans_with_bboxes(spans, ocr_data)`: `none` stands for a falsy
`ocr_data` (or one without a `pages` key). -/
def enrichSpans (ocrData : Option (List PageG)) (spans : List Span) : List Span :=
  match ocrData with
  | none => spans
  | some pages =>
    let allWords := flattenWords pages
    if allWords.isEmpty then spans
    else spans.map (enrichOne allWords)

/-! ## Extraction flow (`extract_with_ollama`, lines 426–494, and
`extract_beleg`, lines 723–782)

The outcome of one `/api/generate` call is reified: `exn` covers
`ConnectError`, `TimeoutException`, a non-2xx status (`raise_for_status`) and
any other exception; `parsedNone` is a 2xx response whose body
`_parse_json_from_llm` could not parse (including an empty response);
`parsedSome d` is a successfully parsed JSON object. -/

inductive CallOutcome where
  | exn : CallOutcome
  | parsedNone : CallOutcome
  | parsedSome (d : PyDict) : CallOutcome

/-- `_unwrap_sourced_response` (lines 111–132). -/
def unwrapSourcedResponse (data : PyDict) : PyDict × List (String × List Char) :=
  data.foldl
    (fun acc kv =>
      match kv.2 with
      | .obj fields =>
        if hasKey fields "wert" then
          (acc.1 ++ [(kv.1, dictIndex fields "wert")],
           if pyTruthy (pyGet fields "quelle") then
             acc.2 ++ [(kv.1, pyStr (dictIndex fields "quelle"))]
           else acc.2)
        else (acc.1 ++ [kv], acc.2)
      | _ => (acc.1 ++ [kv], acc.2))
    ([], [])

/-- The string sentinels `_clean_extracted_data` maps to null (line 140). -/
def nullSentinels : List (List Char) :=
  ["null".toList, "none".toList, [], "n/a".toList,
   "nicht angegeben".toList, "unbekannt".toList]

/-- The optional money fields whose numeric zero becomes null (lines 143–145). -/
def zeroCleanFields : List String :=
  ["betrag_netto", "mwst_betrag", "mwst_satz", "arbeitskosten_35a", "materialkosten"]

/-- One value of `_clean_extracted_data` (lines 135–149). -/
def cleanValue (key : String) (v : PyVal) : PyVal :=
  match v with
  | .s str => if nullSentinels.contains (pyLower (pyStrip str)) then .null else .s str
  | .num q => if q = 0 ∧ zeroCleanFields.contains key then .null else .num q
  | v => v

def cleanData (d : PyDict) : PyDict := d.map fun kv => (kv.1, cleanValue kv.1 kv.2)

/-- Extraction result `{extrahierte_daten, quellreferenzen, methode, konfidenz}`. -/
structure ExtractResult where
  daten : PyDict
  spans : List Span
  methode : String
  konfidenz : String
deriving DecidableEq

/-- The successful-parse path of `extract_with_ollama` (lines 458–480). -/
def processParsed (ocrText : List Char) (data : PyDict) : ExtractResult :=
  let u := unwrapSourcedResponse data
  let flatData := cleanData u.1
  let spans := buildSourceSpansFromQuotes ocrText u.2
  let groundedFields := spans.map (·.feld)
  let fallbackData := flatData.filter fun kv => !groundedFields.contains kv.1
  let spans₂ :=
    if fallbackData.isEmpty then spans
    else spans ++ buildSourceSpans ocrText fallbackData
  { daten := flatData, spans := spans₂, methode := "ollama_direkt",
    konfidenz := assessConfidence flatData spans₂ }

/-- The result of the `except` arms (lines 489–494). -/
def fehlerResult : ExtractResult := ⟨[], [], "fehler", "niedrig"⟩

/-- The result when both parses fail (lines 449–456). -/
def parseFailResult : ExtractResult := ⟨[], [], "ollama_direkt", "niedrig"⟩

/-- `extract_with_ollama(ocr_text)` as a function of the two call outcomes:
the in-extractor retry happens ONLY after a successful call whose body fails
JSON parsing; an HTTP/connection/timeout error returns the `fehler` result
immediately. -/
def extractWithOllama (ocrText : List Char) (o₁ o₂ : CallOutcome) : ExtractResult :=
  match o₁ with
  | .exn => fehlerResult
  | .parsedSome d => processParsed ocrText d
  | .parsedNone =>
    match o₂ with
    | .exn => fehlerResult
    | .parsedSome d => processParsed ocrText d
    | .parsedNone => parseFailResult

/-- `dict.update(kont)` (line 771). -/
def dictUpdate (d kont : PyDict) : PyDict :=
  kont.foldl (fun acc kv => dictSet acc kv.1 kv.2) d

/-- `extract_beleg` (lines 723–782). `visionOutcome` is what
`_vision_extract` would return (`none` for any failure); it is consulted only
when the vision pass is triggered, as in the source. -/
def extractBeleg (ocrText : List Char) (ocrData : Option (List PageG)) (ocrConf : ℚ)
    (hasImagePath hasVisionModel : Bool) (visionThreshold : ℚ)
    (o₁ o₂ : CallOutcome) (visionOutcome : Option PyDict) : ExtractResult :=
  let result := extractWithOllama ocrText o₁ o₂
  let data := result.daten
  let keyFieldsFound := (["betrag_brutto", "aussteller", "datum_beleg"].filter
    fun f => (pyGet data f).isSome).length
  let needsVision := hasImagePath && (hasVisionModel &&
    (decide (ocrConf < visionThreshold) || decide (keyFieldsFound < 2)))
  let merged : PyDict × Bool :=
    if needsVision then
      match visionOutcome with
      | some vd => if vd.isEmpty then (data, false) else mergeExtractions data vd
      | none => (data, false)
    else (data, false)
  let data₂ := merged.1
  let methode := if merged.2 then "ollama_vision_merged" else result.methode
  let data₃ :=
    if pyTruthy (pyGet data₂ "beleg_typ") && !pyTruthy (pyGet data₂ "skr03_konto") then
      let mwst : Option ℚ :=
        if !hasKey data₂ "mwst_satz" then some 0
        else
          match dictIndex data₂ "mwst_satz" with
          | .num q => some q
          | .s str => pyFloat str
          | _ => none
      dictUpdate data₂ (autoKontierung ((pyGet data₂ "beleg_typ").getD .null) mwst)
    else data₂
  let spans := result.spans
  let konfidenz := assessConfidence data₃ spans
  let spans₂ :=
    if ocrData.isSome && !spans.isEmpty then enrichSpans ocrData spans else spans
  { daten := data₃, spans := spans₂, methode := methode, konfidenz := konfidenz }

/-! ## Pipeline router (`belege.py`) -/

/-- The receipt columns touched by `_run_pipeline` / `_map_fields`. -/
structure Beleg where
  status : String
  pruefnotiz : Option (List Char)
  belegTyp : Option (List Char)
  aussteller : Option (List Char)
  beschreibung : Option (List Char)
  rechnungsnummer : Option (List Char)
  datumBeleg : Option (List Char)
  steuerKategorie : Option (List Char)
  skr03Konto : Option (List Char)
  skr03Bezeichnung : Option (List Char)
  buSchluessel : Option (List Char)
  gegenkonto : Option (List Char)
  betragBrutto : Option ℚ
  betragNetto : Option ℚ
  mwstSatz : Option ℚ
  mwstBetrag : Option ℚ
  paragraph35aAnteil : Option ℚ
  materialkosten : Option ℚ
  extrahierteDaten : Option PyDict
  quellreferenzen : Option (List Span)
  extraktionMethode : Option String
  extraktionKonfidenz : Option String
deriving DecidableEq

/-- `val != "null"` of `_map_fields` (value-level comparison: a number is
never equal to the string `"null"`). -/
def pyNotNullStr : PyVal → Bool
  | .s str => !(str == "null".toList)
  | _ => true

/-- One iteration of the string-field loop of `_map_fields` (lines 110–113):
`if val and val != "null": setattr(beleg, dst, str(val))`. -/
def writeStrField (b : Beleg) (d : PyDict) (src : String)
    (set : Beleg → List Char → Beleg) : Beleg :=
  match pyGet d src with
  | none => b
  | some v =>
    if pyTruthy (some v) && pyNotNullStr v then set b (pyStr v) else b

/-- One iteration of the numeric-field loop (lines 116–126):
`num = float(str(val).replace(",", "."))`, skipped on a parse error. -/
def writeNumField (b : Beleg) (d : PyDict) (src : String)
    (set : Beleg → ℚ → Beleg) : Beleg :=
  match pyGet d src with
  | none => b
  | some v =>
    if pyTruthy (some v) && pyNotNullStr v then
      match pyFloat ((pyStr v).map fun c => if c == ',' then '.' else c) with
      | some num => set b num
      | none => b
    else b

def optStrTruthy : Option (List Char) → Bool
  | none => false
  | some l => !l.isEmpty

/-- Lines 129–130: `if not beleg.gegenkonto: beleg.gegenkonto = "1200"`. -/
def setDefaultGegenkonto (b : Beleg) : Beleg :=
  if !optStrTruthy b.gegenkonto then { b with gegenkonto := some "1200".toList } else b

/-- `_map_fields(beleg, data)` (lines 97–130), the loops unrolled over the
fixed `field_map` and numeric-field list, then the default counter-account. -/
def mapFields (b : Beleg) (d : PyDict) : Beleg :=
  let b₁ := writeStrField b d "beleg_typ" fun b v => { b with belegTyp := some v }
  let b₂ := writeStrField b₁ d "aussteller" fun b v => { b with aussteller := some v }
  let b₃ := writeStrField b₂ d "beschreibung" fun b v => { b with beschreibung := some v }
  let b₄ := writeStrField b₃ d "rechnungsnummer" fun b v =>
    { b with rechnungsnummer := some v }
  let b₅ := writeStrField b₄ d "datum_beleg" fun b v => { b with datumBeleg := some v }
  let b₆ := writeStrField b₅ d "steuer_kategorie" fun b v =>
    { b with steuerKategorie := some v }
  let b₇ := writeStrField b₆ d "skr03_konto" fun b v => { b with skr03Konto := some v }
  let b₈ := writeStrField b₇ d "skr03_bezeichnung" fun b v =>
    { b with skr03Bezeichnung := some v }
  let b₉ := writeStrField b₈ d "bu_schluessel" fun b v => { b with buSchluessel := some v }
  let c₁ := writeNumField b₉ d "betrag_brutto" fun b v => { b with betragBrutto := some v }
  let c₂ := writeNumField c₁ d "betrag_netto" fun b v => { b with betragNetto := some v }
  let c₃ := writeNumField c₂ d "mwst_satz" fun b v => { b with mwstSatz := some v }
  let c₄ := writeNumField c₃ d "mwst_betrag" fun b v => { b with mwstBetrag := some v }
  let c₅ := writeNumField c₄ d "arbeitskosten_35a" fun b v =>
    { b with paragraph35aAnteil := some v }
  let c₆ := writeNumField c₅ d "materialkosten" fun b v =>
    { b with materialkosten := some v }
  setDefaultGegenkonto c₆

/-- Lines 73–83 of `_run_pipeline`: persist the extraction artifacts, map the
fields, set the state to `extrahiert`. -/
def extractionPhase (b : Beleg) (res : ExtractResult) : Beleg :=
  let b₁ := { b with
    extrahierteDaten := some res.daten
    quellreferenzen := some res.spans
    extraktionMethode := some res.methode
    extraktionKonfidenz := some res.konfidenz }
  let b₂ := mapFields b₁ res.daten
  { b₂ with status := "extrahiert" }

/-- The values `_map_fields` ignores: Python-falsy (`None`, numeric zero, the
empty string) or the literal string `"null"`. -/
def falsyOrNullString (v : Option PyVal) : Prop :=
  v = none ∨ v = some (.num 0) ∨ v = some (.s []) ∨ v = some (.s "null".toList)

/-- Phase 2 of `_run_pipeline` (lines 58–89) on the non-raising path: when
every LLM call fails, `extract_beleg` returns normally (`extract_with_ollama`
and `_vision_extract` catch all HTTP, timeout and parse errors), so the
`except` branch that would set the state to `fehler` is not reached. -/
def runExtractionPhase (b : Beleg) (ocrText : List Char)
    (ocrData : Option (List PageG)) (ocrConf : ℚ)
    (hasImagePath hasVisionModel : Bool) (visionThreshold : ℚ)
    (o₁ o₂ : CallOutcome) (visionOutcome : Option PyDict) : Beleg :=
  let b₁ := { b with status := "extraktion_laeuft" }
  extractionPhase b₁ (extractBeleg ocrText ocrData ocrConf hasImagePath
    hasVisionModel visionThreshold o₁ o₂ visionOutcome)

/-! ### Lemmas about slicing -/

theorem strSlice_append_of_le (l₁ l₂ : List Char) (s e : Nat)
    (hse : s ≤ e) (he : e ≤ l₁.length) :
    strSlice (l₁ ++ l₂) s e = strSlice l₁ s e := by
  unfold strSlice
  rw [List.drop_append_of_le_length (le_trans hse he)]
  rw [List.take_append_of_le_length]
  rw [List.length_drop]
  omega

theorem strSlice_shift (l₁ l₂ : List Char) (s e : Nat) :
    strSlice (l₁ ++ l₂) (l₁.length + s) (l₁.length + e) = strSlice l₂ s e := by
  unfold strSlice
  rw [List.drop_append]
  congr 1
  omega

theorem strSlice_exact (l₁ t l₂ : List Char) :
    strSlice (l₁ ++ (t ++ l₂)) l₁.length (l₁.length + t.length) = t := by
  unfold strSlice
  rw [List.drop_left]
  have : l₁.length + t.length - l₁.length = t.length := by omega
  rw [this, List.take_append_of_le_length (le_refl _), List.take_length]

theorem strSlice_getLast (l t : List Char) (s : Nat) (ht : t ≠ [])
    (h : strSlice l s (s + t.length) = t) :
    l.get? (s + t.length - 1) = t.getLast? := by
  have hlen : 0 < t.length := List.length_pos.mpr ht
  have h2 : t.get? (t.length - 1) = t.getLast? := (List.getLast?_eq_get? t).symm
  have key : (strSlice l s (s + t.length)).get? (t.length - 1) =
      l.get? (s + (t.length - 1)) := by
    unfold strSlice
    rw [List.get?_take (by omega), List.get?_drop]
  rw [h, h2] at key
  rw [key]
  congr 1
  omega

/-! ### Lemmas about `rstripNl` -/

theorem rstripNl_append_nl (l : List Char) :
    rstripNl (l ++ ['\n']) = rstripNl l := by
  unfold rstripNl
  rw [List.reverse_append]
  rfl

theorem rstripNl_of_getLast (l : List Char) (c : Char)
    (hl : l.getLast? = some c) (hc : (c == '\n') = false) :
    rstripNl l = l := by
  unfold rstripNl
  rw [List.getLast?_eq_head?_reverse] at hl
  cases hrev : l.reverse with
  | nil => simp [hrev] at hl
  | cons a t =>
    rw [hrev] at hl
    simp only [List.head?_cons, Option.some.injEq] at hl
    subst hl
    rw [List.dropWhile_cons_of_neg (by simp [hc]), ← hrev, List.reverse_reverse]

theorem rstripNl_decomp (l : List Char) :
    ∃ sfx, l = rstripNl l ++ sfx ∧ ∀ c ∈ sfx, c = '\n' := by
  refine ⟨(l.reverse.takeWhile (· == '\n')).reverse, ?_, ?_⟩
  · unfold rstripNl
    rw [← List.reverse_append, List.takeWhile_append_dropWhile, List.reverse_reverse]
  · intro c hc
    rw [List.mem_reverse] at hc
    have := List.mem_takeWhile_imp hc
    simpa using this

theorem lt_length_rstripNl (l : List Char) (k : Nat) (c : Char)
    (hk : l.get? k = some c) (hc : c ≠ '\n') :
    k < (rstripNl l).length := by
  obtain ⟨sfx, hdec, hsfx⟩ := rstripNl_decomp l
  by_contra hge
  push_neg at hge
  rw [hdec, List.get?_append_right hge] at hk
  exact hc (hsfx c (List.get?_mem hk))

theorem strSlice_rstripNl (l : List Char) (s e : Nat) (hse : s ≤ e)
    (he : e ≤ (rstripNl l).length) :
    strSlice l s e = strSlice (rstripNl l) s e := by
  obtain ⟨sfx, hdec, _⟩ := rstripNl_decomp l
  conv_lhs => rw [hdec]
  exact strSlice_append_of_le _ _ _ _ hse he

theorem pyStrip_getLast_not_ws (l : List Char) (c : Char)
    (h : (pyStrip l).getLast? = some c) : isPyWs c = false := by
  unfold pyStrip at h
  rw [List.getLast?_reverse] at h
  cases hd : (l.dropWhile isPyWs).reverse.dropWhile isPyWs with
  | nil => rw [hd] at h; simp at h
  | cons a t =>
    rw [hd] at h
    simp only [List.head?_cons, Option.some.injEq] at h
    subst h
    have := List.head?_dropWhile_not isPyWs (l.dropWhile isPyWs).reverse
    rw [hd] at this
    simpa using this

/-! ### Emission invariants -/

theorem emitWords_len (toks : List Tok) : ∀ off isFirst,
    (emitWords off isFirst toks).1 = off + (emitWords off isFirst toks).2.1.length := by
  induction toks with
  | nil => intro off isFirst; simp [emitWords]
  | cons t rest ih =>
    intro off isFirst
    simp only [emitWords]
    rw [ih]
    cases isFirst <;> simp <;> omega

theorem getLast?_cons_of_ne_nil {α : Type} (a : α) (l : List α) (h : l ≠ []) :
    (a :: l).getLast? = l.getLast? := by
  obtain ⟨b, t, rfl⟩ := List.exists_cons_of_ne_nil h
  rfl

theorem emitWords_spec (toks : List Tok) : ∀ off isFirst pre, pre.length = off →
    ∀ w ∈ (emitWords off isFirst toks).2.2,
      w.charEnd = w.charStart + w.text.length ∧
      off ≤ w.charStart ∧
      w.charEnd ≤ (emitWords off isFirst toks).1 ∧
      strSlice (pre ++ (emitWords off isFirst toks).2.1) w.charStart w.charEnd = w.text := by
  induction toks with
  | nil => intro off isFirst pre hpre w hw; simp [emitWords] at hw
  | cons t rest ih =>
    intro off isFirst pre hpre w hw
    simp only [emitWords] at hw ⊢
    set spc : List Char := if isFirst then [] else [' '] with hspc
    set cs := off + spc.length with hcs
    set ce := cs + t.text.length with hce
    have hlen2 : (pre ++ spc).length = cs := by
      simp [List.length_append, hpre]
    rcases List.mem_cons.mp hw with rfl | hw2
    · refine ⟨rfl, Nat.le_add_right _ _, ?_, ?_⟩
      · rw [emitWords_len]
        exact Nat.le_add_right _ _
      · dsimp only
        have hassoc : pre ++ (spc ++ t.text ++ (emitWords ce false rest).2.1) =
            (pre ++ spc) ++ (t.text ++ (emitWords ce false rest).2.1) := by
          simp [List.append_assoc]
        rw [hassoc, hce]
        have h2 := strSlice_exact (pre ++ spc) t.text (emitWords ce false rest).2.1
        rw [hlen2] at h2
        exact h2
    · have hrec := ih ce false (pre ++ spc ++ t.text)
        (by simp only [List.length_append]; omega) w hw2
      refine ⟨hrec.1, ?_, hrec.2.2.1, ?_⟩
      · have h1 : off ≤ ce := by omega
        exact le_trans h1 hrec.2.1
      · have hassoc2 : pre ++ (spc ++ t.text ++ (emitWords ce false rest).2.1) =
            (pre ++ spc ++ t.text) ++ (emitWords ce false rest).2.1 := by
          simp [List.append_assoc]
        rw [hassoc2]
        exact hrec.2.2.2

theorem emitWords_texts (toks : List Tok) (P : List Char → Prop) :
    ∀ off isFirst, (∀ t ∈ toks, P t.text) →
    ∀ w ∈ (emitWords off isFirst toks).2.2, P w.text := by
  induction toks with
  | nil => intro off isFirst _ w hw; simp [emitWords] at hw
  | cons t rest ih =>
    intro off isFirst hP w hw
    simp only [emitWords] at hw
    rcases List.mem_cons.mp hw with rfl | hw2
    · exact hP t (List.mem_cons_self _ _)
    · exact ih _ false (fun x hx => hP x (List.mem_cons_of_mem _ hx)) w hw2

theorem emitWords_head (toks : List Tok) (off : Nat) (isFirst : Bool)
    (h : toks ≠ []) :
    ∃ w₀, (emitWords off isFirst toks).2.2.head? = some w₀ ∧
      w₀.charStart = off + (if isFirst then 0 else 1) := by
  obtain ⟨t, rest, rfl⟩ := List.exists_cons_of_ne_nil h
  refine ⟨_, rfl, ?_⟩
  cases isFirst <;> simp [emitWords]

theorem emitWords_last (toks : List Tok) : ∀ off isFirst, toks ≠ [] →
    ∃ wl pfx, (emitWords off isFirst toks).2.2.getLast? = some wl ∧
      (emitWords off isFirst toks).2.1 = pfx ++ wl.text ∧
      wl.charEnd = off + pfx.length + wl.text.length := by
  induction toks with
  | nil => intro _ _ h; exact absurd rfl h
  | cons t rest ih =>
    intro off isFirst _
    by_cases hr : rest = []
    · subst hr
      cases isFirst
      · refine ⟨⟨t.text, t.x, t.y, t.w, t.h, t.conf, off + 1, off + 1 + t.text.length⟩,
          [' '], ?_, ?_, ?_⟩
        · simp [emitWords]
        · simp [emitWords]
        · simp
      · refine ⟨⟨t.text, t.x, t.y, t.w, t.h, t.conf, off, off + t.text.length⟩,
          [], ?_, ?_, ?_⟩
        · simp [emitWords]
        · simp [emitWords]
        · simp
    · obtain ⟨wl, pfx, hlast, hparts, hce⟩ := ih
        (off + (if isFirst then ([] : List Char) else [' ']).length + t.text.length)
        false hr
      refine ⟨wl, (if isFirst then ([] : List Char) else [' ']) ++ t.text ++ pfx, ?_, ?_, ?_⟩
      · simp only [emitWords]
        rw [getLast?_cons_of_ne_nil]
        · exact hlast
        · intro hnil
          rw [hnil] at hlast
          simp at hlast
      · simp only [emitWords]
        rw [hparts]
        simp [List.append_assoc]
      · rw [hce]
        simp [List.length_append]
        omega

theorem emitGroups_len (gs : List ((Nat × Nat) × List Tok)) : ∀ off pb,
    (emitGroups off pb gs).1 = off + (emitGroups off pb gs).2.1.length := by
  induction gs with
  | nil => intro off pb; simp [emitGroups]
  | cons g rest ih =>
    intro off pb
    obtain ⟨k, gtoks⟩ := g
    simp only [emitGroups]
    rw [ih, emitWords_len]
    simp [List.length_append]
    omega

theorem emitGroups_spec (gs : List ((Nat × Nat) × List Tok)) : ∀ off pb pre,
    pre.length = off →
    ∀ w ∈ (emitGroups off pb gs).2.2,
      w.charEnd = w.charStart + w.text.length ∧
      off ≤ w.charStart ∧
      w.charEnd ≤ (emitGroups off pb gs).1 ∧
      strSlice (pre ++ (emitGroups off pb gs).2.1) w.charStart w.charEnd = w.text := by
  induction gs with
  | nil => intro off pb pre hpre w hw; simp [emitGroups] at hw
  | cons g rest ih =>
    intro off pb pre hpre w hw
    obtain ⟨k, gtoks⟩ := g
    simp only [emitGroups] at hw ⊢
    have hw1len := emitWords_len gtoks (off + (blockSep pb k.1).length) true
    have hr2len := emitGroups_len rest
      ((emitWords (off + (blockSep pb k.1).length) true gtoks).1 + 1) (some k.1)
    rcases List.mem_append.mp hw with hw1 | hw2
    · have hrec := emitWords_spec gtoks (off + (blockSep pb k.1).length) true
        (pre ++ blockSep pb k.1) (by simp [List.length_append, hpre]) w hw1
      refine ⟨hrec.1, le_trans (Nat.le_add_right _ _) hrec.2.1, ?_, ?_⟩
      · have h1 := hrec.2.2.1
        omega
      · have hassoc : pre ++ (blockSep pb k.1 ++
              (emitWords (off + (blockSep pb k.1).length) true gtoks).2.1 ++
              '\n' :: (emitGroups
                ((emitWords (off + (blockSep pb k.1).length) true gtoks).1 + 1)
                (some k.1) rest).2.1) =
            ((pre ++ blockSep pb k.1) ++
              (emitWords (off + (blockSep pb k.1).length) true gtoks).2.1) ++
              '\n' :: (emitGroups
                ((emitWords (off + (blockSep pb k.1).length) true gtoks).1 + 1)
                (some k.1) rest).2.1 := by
          simp [List.append_assoc]
        rw [hassoc]
        have h1 := hrec.2.2.1
        have h0 := hrec.1
        rw [strSlice_append_of_le _ _ _ _ (by omega)
          (by simp [List.length_append]; omega)]
        exact hrec.2.2.2
    · have hrec := ih ((emitWords (off + (blockSep pb k.1).length) true gtoks).1 + 1)
        (some k.1)
        (pre ++ blockSep pb k.1 ++
          (emitWords (off + (blockSep pb k.1).length) true gtoks).2.1 ++ ['\n'])
        (by simp [List.length_append]; omega) w hw2
      refine ⟨hrec.1, ?_, ?_, ?_⟩
      · have h1 : off ≤ (emitWords (off + (blockSep pb k.1).length) true gtoks).1 + 1 := by
          omega
        exact le_trans h1 hrec.2.1
      · exact hrec.2.2.1
      · have hassoc : pre ++ (blockSep pb k.1 ++
              (emitWords (off + (blockSep pb k.1).length) true gtoks).2.1 ++
              '\n' :: (emitGroups
                ((emitWords (off + (blockSep pb k.1).length) true gtoks).1 + 1)
                (some k.1) rest).2.1) =
            (pre ++ blockSep pb k.1 ++
              (emitWords (off + (blockSep pb k.1).length) true gtoks).2.1 ++ ['\n']) ++
              (emitGroups
                ((emitWords (off + (blockSep pb k.1).length) true gtoks).1 + 1)
                (some k.1) rest).2.1 := by
          simp [List.append_assoc]
        rw [hassoc]
        exact hrec.2.2.2

theorem emitGroups_texts (gs : List ((Nat × Nat) × List Tok)) (P : List Char → Prop) :
    ∀ off pb, (∀ g ∈ gs, ∀ t ∈ g.2, P t.text) →
    ∀ w ∈ (emitGroups off pb gs).2.2, P w.text := by
  induction gs with
  | nil => intro off pb _ w hw; simp [emitGroups] at hw
  | cons g rest ih =>
    intro off pb hP w hw
    obtain ⟨k, gtoks⟩ := g
    simp only [emitGroups] at hw
    rcases List.mem_append.mp hw with hw1 | hw2
    · exact emitWords_texts gtoks P _ true
        (fun t ht => hP (k, gtoks) (List.mem_cons_self _ _) t ht) w hw1
    · exact ih _ (some k.1) (fun g hg => hP g (List.mem_cons_of_mem _ hg)) w hw2

theorem emitGroups_head (gs : List ((Nat × Nat) × List Tok)) (off : Nat)
    (g₀ : (Nat × Nat) × List Tok) (rest : List ((Nat × Nat) × List Tok))
    (hgs : gs = g₀ :: rest) (hne : g₀.2 ≠ []) :
    ∃ w₀, (emitGroups off none gs).2.2.head? = some w₀ ∧ w₀.charStart = off := by
  subst hgs
  obtain ⟨k, gtoks⟩ := g₀
  simp only [emitGroups]
  obtain ⟨w₀, hw₀, hcs⟩ :=
    emitWords_head gtoks (off + (blockSep none k.1).length) true hne
  have hne2 : (emitWords (off + (blockSep none k.1).length) true gtoks).2.2 ≠ [] := by
    intro hnil
    rw [hnil] at hw₀
    simp at hw₀
  refine ⟨w₀, ?_, ?_⟩
  · rw [List.head?_append_of_ne_nil _ hne2]
    exact hw₀
  · simp [blockSep] at hcs
    exact hcs

theorem emitGroups_last (gs : List ((Nat × Nat) × List Tok)) : ∀ off pb,
    gs ≠ [] → (∀ g ∈ gs, g.2 ≠ []) →
    ∃ wl pfx, (emitGroups off pb gs).2.2.getLast? = some wl ∧
      (emitGroups off pb gs).2.1 = pfx ++ wl.text ++ ['\n'] ∧
      wl.charEnd = off + pfx.length + wl.text.length := by
  induction gs with
  | nil => intro _ _ h _; exact absurd rfl h
  | cons g rest ih =>
    intro off pb _ hne
    obtain ⟨k, gtoks⟩ := g
    have hgne : gtoks ≠ [] := hne (k, gtoks) (List.mem_cons_self _ _)
    by_cases hr : rest = []
    · subst hr
      obtain ⟨wl, pfx, hlast, hparts, hce⟩ :=
        emitWords_last gtoks (off + (blockSep pb k.1).length) true hgne
      have hwne : (emitWords (off + (blockSep pb k.1).length) true gtoks).2.2 ≠ [] := by
        intro hnil
        rw [hnil] at hlast
        simp at hlast
      refine ⟨wl, blockSep pb k.1 ++ pfx, ?_, ?_, ?_⟩
      · simp only [emitGroups, List.append_nil]
        exact hlast
      · simp only [emitGroups]
        rw [hparts]
        simp [List.append_assoc]
      · rw [hce]
        simp [List.length_append]
        omega
    · obtain ⟨wl, pfx, hlast, hparts, hce⟩ := ih
        ((emitWords (off + (blockSep pb k.1).length) true gtoks).1 + 1) (some k.1) hr
        (fun g hg => hne g (List.mem_cons_of_mem _ hg))
      have hw1len := emitWords_len gtoks (off + (blockSep pb k.1).length) true
      have hlne : (emitGroups
          ((emitWords (off + (blockSep pb k.1).length) true gtoks).1 + 1)
          (some k.1) rest).2.2 ≠ [] := by
        intro hnil
        rw [hnil] at hlast
        simp at hlast
      refine ⟨wl, blockSep pb k.1 ++
        (emitWords (off + (blockSep pb k.1).length) true gtoks).2.1 ++ ['\n'] ++ pfx,
        ?_, ?_, ?_⟩
      · simp only [emitGroups]
        rw [List.getLast?_append_of_ne_nil _ hlne]
        exact hlast
      · simp only [emitGroups]
        rw [hparts]
        simp [List.append_assoc]
      · rw [hce]
        simp [List.length_append]
        omega

/-! ### Page-level facts -/

theorem groupsOf_mem (toks : List Tok) (g : (Nat × Nat) × List Tok)
    (hg : g ∈ groupsOf toks) : g.2 ≠ [] ∧ ∀ t ∈ g.2, t ∈ toks := by
  unfold groupsOf at hg
  obtain ⟨k, hk, hEq⟩ := List.mem_map.mp hg
  constructor
  · rw [← hEq]
    have hk2 : k ∈ (toks.map tokKey).dedup :=
      (List.perm_insertionSort pairLe _).subset hk
    obtain ⟨t, ht, htk⟩ := List.mem_map.mp (List.mem_dedup.mp hk2)
    show List.filter (fun t => tokKey t == k) toks ≠ []
    intro hnil
    have : t ∈ toks.filter fun t => tokKey t == k :=
      List.mem_filter_of_mem ht (by simp [htk])
    rw [hnil] at this
    simp at this
  · intro t ht
    rw [← hEq] at ht
    exact (List.mem_filter.mp ht).1

theorem groupsOf_ne_nil (toks : List Tok) (h : toks ≠ []) : groupsOf toks ≠ [] := by
  obtain ⟨t, rest, rfl⟩ := List.exists_cons_of_ne_nil h
  unfold groupsOf
  intro hnil
  rw [List.map_eq_nil] at hnil
  have : tokKey t ∈ List.insertionSort pairLe ((t :: rest).map tokKey).dedup := by
    rw [(List.perm_insertionSort pairLe _).mem_iff, List.mem_dedup]
    exact List.mem_map_of_mem tokKey (List.mem_cons_self _ _)
  unfold sortedKeys at hnil
  rw [hnil] at this
  simp at this

/-- Every stripped token's text is nonempty and does not end in whitespace. -/
theorem stripTokens_stripped (raw : List RawToken) (origW origH procW procH : Nat)
    (t : Tok) (ht : t ∈ stripTokens raw origW origH procW procH) :
    t.text ≠ [] ∧ ∀ c, t.text.getLast? = some c → isPyWs c = false := by
  unfold stripTokens at ht
  obtain ⟨r, _, hr⟩ := List.mem_filterMap.mp ht
  by_cases hnil : pyStrip r.text = []
  · simp [hnil] at hr
  · simp only [hnil, if_false, Option.some.injEq] at hr
    constructor
    · rw [← hr]
      exact hnil
    · intro c hc
      rw [← hr] at hc
      exact pyStrip_getLast_not_ws r.text c hc

theorem isPyWs_nl : isPyWs '\n' = true := by decide

/-! ### The token-order word list is a permutation of the emission order -/

theorem emitWords_wordCount (toks : List Tok) : ∀ off isFirst,
    (emitWords off isFirst toks).2.2.length = toks.length := by
  induction toks with
  | nil => intro off isFirst; rfl
  | cons t rest ih =>
    intro off isFirst
    unfold emitWords
    dsimp only
    rw [List.length_cons, ih, List.length_cons]

theorem wordsBind_cons (a : (Nat × Nat) × List Word)
    (l : List ((Nat × Nat) × List Word)) :
    ((a :: l).bind fun e => e.2) = a.2 ++ l.bind fun e => e.2 := rfl

theorem wordsBind_append (l₁ l₂ : List ((Nat × Nat) × List Word)) :
    ((l₁ ++ l₂).bind fun e => e.2) =
      (l₁.bind fun e => e.2) ++ (l₂.bind fun e => e.2) := by
  induction l₁ with
  | nil => rfl
  | cons a l ih =>
    rw [List.cons_append, wordsBind_cons, wordsBind_cons, ih, List.append_assoc]

theorem wordsBind_nil (l : List ((Nat × Nat) × List Word))
    (h : ∀ e ∈ l, e.2 = []) : (l.bind fun e => e.2) = [] := by
  induction l with
  | nil => rfl
  | cons a l ih =>
    rw [wordsBind_cons, h a (List.mem_cons_self _ _),
      ih (fun e he => h e (List.mem_cons_of_mem _ he)), List.nil_append]

theorem emitGroupsStruct_flat (gs : List ((Nat × Nat) × List Tok)) : ∀ off pb,
    ((emitGroupsStruct off pb gs).bind fun e => e.2) = (emitGroups off pb gs).2.2 := by
  induction gs with
  | nil => intro off pb; rfl
  | cons g rest ih =>
    intro off pb
    obtain ⟨k, gtoks⟩ := g
    unfold emitGroupsStruct emitGroups
    dsimp only
    rw [wordsBind_cons, ih]

theorem emitGroupsStruct_keys (gs : List ((Nat × Nat) × List Tok)) : ∀ off pb,
    (emitGroupsStruct off pb gs).map Prod.fst = gs.map Prod.fst := by
  induction gs with
  | nil => intro off pb; rfl
  | cons g rest ih =>
    intro off pb
    obtain ⟨k, gtoks⟩ := g
    unfold emitGroupsStruct
    dsimp only
    rw [List.map_cons, List.map_cons, ih]

theorem emitGroupsStruct_entry (gs : List ((Nat × Nat) × List Tok)) : ∀ off pb,
    ∀ e ∈ emitGroupsStruct off pb gs, ∃ g ∈ gs, e.1 = g.1 ∧ e.2.length = g.2.length := by
  induction gs with
  | nil => intro off pb e he; cases he
  | cons g rest ih =>
    intro off pb e he
    obtain ⟨k, gtoks⟩ := g
    unfold emitGroupsStruct at he
    dsimp only at he
    rcases List.mem_cons.mp he with rfl | he2
    · refine ⟨(k, gtoks), List.mem_cons_self _ _, rfl, ?_⟩
      exact emitWords_wordCount gtoks _ true
    · obtain ⟨g2, hg2, h1, h2⟩ := ih _ _ e he2
      exact ⟨g2, List.mem_cons_of_mem _ hg2, h1, h2⟩

theorem popFromGroups_first (key : Nat × Nat) (w : Word) (ws2 : List Word) :
    ∀ (pre post : List ((Nat × Nat) × List Word)),
      (∀ e ∈ pre, e.1 ≠ key) →
      popFromGroups (pre ++ (key, w :: ws2) :: post) key =
        (some w, pre ++ (key, ws2) :: post) := by
  intro pre
  induction pre with
  | nil =>
    intro post _
    show popFromGroups ((key, w :: ws2) :: post) key = _
    unfold popFromGroups
    rw [if_pos rfl]
    rfl
  | cons e pre ih =>
    intro post hpre
    obtain ⟨k, ws⟩ := e
    show popFromGroups ((k, ws) :: (pre ++ (key, w :: ws2) :: post)) key = _
    unfold popFromGroups
    rw [if_neg (hpre (k, ws) (List.mem_cons_self _ _))]
    dsimp only
    rw [ih post (fun e2 he2 => hpre e2 (List.mem_cons_of_mem _ he2))]
    rfl

theorem exists_first_key :
    ∀ (assoc : List ((Nat × Nat) × List Word)) (key : Nat × Nat),
      key ∈ assoc.map Prod.fst →
      ∃ pre ws post, assoc = pre ++ (key, ws) :: post ∧ ∀ e ∈ pre, e.1 ≠ key := by
  intro assoc
  induction assoc with
  | nil => intro key h; cases h
  | cons e rest ih =>
    intro key h
    obtain ⟨k0, ws0⟩ := e
    by_cases hk : k0 = key
    · subst hk
      exact ⟨[], ws0, rest, rfl, fun e2 he2 => absurd he2 (List.not_mem_nil e2)⟩
    · have h2 : key ∈ rest.map Prod.fst := by
        rw [List.map_cons] at h
        rcases List.mem_cons.mp h with heq | hm
        · exact absurd heq.symm hk
        · exact hm
      obtain ⟨pre, ws, post, heq, hpre⟩ := ih key h2
      refine ⟨(k0, ws0) :: pre, ws, post, by rw [heq, List.cons_append], ?_⟩
      intro e2 he2
      rcases List.mem_cons.mp he2 with rfl | hm
      · exact hk
      · exact hpre e2 hm

theorem tokenOrderWords_perm :
    ∀ (toks : List Tok) (assoc : List ((Nat × Nat) × List Word)),
      (assoc.map Prod.fst).Nodup →
      (∀ e ∈ assoc, e.2.length = (toks.filter fun s => tokKey s == e.1).length) →
      (∀ t ∈ toks, tokKey t ∈ assoc.map Prod.fst) →
      List.Perm (tokenOrderWords toks assoc) (assoc.bind fun e => e.2) := by
  intro toks
  induction toks with
  | nil =>
    intro assoc _ hcnt _
    have hb : (assoc.bind fun e => e.2) = [] := by
      apply wordsBind_nil
      intro e he
      have h := hcnt e he
      simp only [List.filter_nil, List.length_nil] at h
      exact List.length_eq_zero.mp h
    rw [hb]
    exact List.Perm.nil
  | cons t rest ih =>
    intro assoc hnd hcnt htk
    have hk0 : tokKey t ∈ assoc.map Prod.fst := htk t (List.mem_cons_self _ _)
    obtain ⟨pre, ws, post, hdec, hpre⟩ := exists_first_key assoc (tokKey t) hk0
    have hent : ((tokKey t, ws) : (Nat × Nat) × List Word) ∈ assoc := by
      rw [hdec]
      exact List.mem_append_right _ (List.mem_cons_self _ _)
    have hws : ws.length = ((t :: rest).filter fun s => tokKey s == tokKey t).length :=
      hcnt _ hent
    have hfilt : ((t :: rest).filter fun s => tokKey s == tokKey t) =
        t :: (rest.filter fun s => tokKey s == tokKey t) := by
      rw [List.filter_cons]
      simp
    rw [hfilt, List.length_cons] at hws
    obtain ⟨w, ws2, rfl⟩ : ∃ w ws2, ws = w :: ws2 := by
      cases ws with
      | nil => simp at hws
      | cons w ws2 => exact ⟨w, ws2, rfl⟩
    have hpop : popFromGroups assoc (tokKey t) =
        (some w, pre ++ (tokKey t, ws2) :: post) := by
      rw [hdec]
      exact popFromGroups_first (tokKey t) w ws2 pre post hpre
    have hstep : tokenOrderWords (t :: rest) assoc =
        w :: tokenOrderWords rest (pre ++ (tokKey t, ws2) :: post) := by
      have hdef : tokenOrderWords (t :: rest) assoc =
          match popFromGroups assoc (tokKey t) with
          | (some w2, assoc2) => w2 :: tokenOrderWords rest assoc2
          | (none, assoc2) => tokenOrderWords rest assoc2 := rfl
      rw [hdef, hpop]
    rw [hstep]
    have hkeys : assoc.map Prod.fst =
        pre.map Prod.fst ++ tokKey t :: post.map Prod.fst := by
      rw [hdec, List.map_append, List.map_cons]
    have hkeys2 : (pre ++ (tokKey t, ws2) :: post).map Prod.fst =
        pre.map Prod.fst ++ tokKey t :: post.map Prod.fst := by
      rw [List.map_append, List.map_cons]
    have hnd2 : ((pre ++ (tokKey t, ws2) :: post).map Prod.fst).Nodup := by
      rw [hkeys2, ← hkeys]
      exact hnd
    have hnd3 := hnd
    rw [hkeys] at hnd3
    have hpost : tokKey t ∉ post.map Prod.fst := by
      have h2 := (List.nodup_append.mp hnd3).2.1
      exact (List.nodup_cons.mp h2).1
    have hcnt2 : ∀ e ∈ pre ++ (tokKey t, ws2) :: post,
        e.2.length = (rest.filter fun s => tokKey s == e.1).length := by
      intro e he
      rcases List.mem_append.mp he with hin | hin
      · have hne : e.1 ≠ tokKey t := hpre e hin
        have hmem : e ∈ assoc := by
          rw [hdec]
          exact List.mem_append_left _ hin
        have h := hcnt e hmem
        rw [List.filter_cons] at h
        have hbf : (tokKey t == e.1) = false :=
          beq_eq_false_iff_ne.mpr (fun h2 => hne h2.symm)
        rw [hbf] at h
        simpa using h
      · rcases List.mem_cons.mp hin with rfl | hin2
        · simp only [List.length_cons] at hws
          dsimp only
          omega
        · have hne : e.1 ≠ tokKey t := by
            intro h
            exact hpost (h ▸ List.mem_map_of_mem Prod.fst hin2)
          have hmem : e ∈ assoc := by
            rw [hdec]
            exact List.mem_append_right _ (List.mem_cons_of_mem _ hin2)
          have h := hcnt e hmem
          rw [List.filter_cons] at h
          have hbf : (tokKey t == e.1) = false :=
            beq_eq_false_iff_ne.mpr (fun h2 => hne h2.symm)
          rw [hbf] at h
          simpa using h
    have htk2 : ∀ s ∈ rest, tokKey s ∈ (pre ++ (tokKey t, ws2) :: post).map Prod.fst := by
      intro s hs
      rw [hkeys2, ← hkeys]
      exact htk s (List.mem_cons_of_mem _ hs)
    have hperm := ih (pre ++ (tokKey t, ws2) :: post) hnd2 hcnt2 htk2
    have hbind1 : (assoc.bind fun e => e.2) =
        (pre.bind fun e => e.2) ++ w :: (ws2 ++ (post.bind fun e => e.2)) := by
      rw [hdec, wordsBind_append, wordsBind_cons]
      rfl
    have hbind2 : ((pre ++ (tokKey t, ws2) :: post).bind fun e => e.2) =
        (pre.bind fun e => e.2) ++ (ws2 ++ (post.bind fun e => e.2)) := by
      rw [wordsBind_append, wordsBind_cons]
    rw [hbind1]
    rw [hbind2] at hperm
    exact List.Perm.trans (hperm.cons w) List.perm_middle.symm

theorem groupsOf_keys (toks : List Tok) :
    (groupsOf toks).map Prod.fst = sortedKeys toks := by
  unfold groupsOf
  rw [List.map_map]
  exact List.map_id _

theorem sortedKeys_nodup (toks : List Tok) : (sortedKeys toks).Nodup :=
  (List.perm_insertionSort pairLe _).nodup_iff.mpr (List.nodup_dedup _)

/-- The page's token-order word list is a permutation of the emission-order
list: Python's offset loop consumes, for each key, exactly the words the
token loop appended under that key. -/
theorem extractPage_words_perm (raw : List RawToken) (origW origH procW procH pn : Nat) :
    List.Perm (extractPage raw origW origH procW procH pn).pageData.words
      (emitGroups 0 none (groupsOf (stripTokens raw origW origH procW procH))).2.2 := by
  have hnd : ((emitGroupsStruct 0 none
      (groupsOf (stripTokens raw origW origH procW procH))).map Prod.fst).Nodup := by
    rw [emitGroupsStruct_keys, groupsOf_keys]
    exact sortedKeys_nodup _
  have hcnt : ∀ e ∈ emitGroupsStruct 0 none
      (groupsOf (stripTokens raw origW origH procW procH)),
      e.2.length = ((stripTokens raw origW origH procW procH).filter
        fun s => tokKey s == e.1).length := by
    intro e he
    obtain ⟨g, hg, h1, h2⟩ := emitGroupsStruct_entry _ 0 none e he
    unfold groupsOf at hg
    obtain ⟨k, _, hEq⟩ := List.mem_map.mp hg
    subst hEq
    dsimp only at h1 h2
    rw [h2, h1]
  have htk : ∀ t ∈ stripTokens raw origW origH procW procH,
      tokKey t ∈ (emitGroupsStruct 0 none
        (groupsOf (stripTokens raw origW origH procW procH))).map Prod.fst := by
    intro t ht
    rw [emitGroupsStruct_keys, groupsOf_keys]
    unfold sortedKeys
    rw [(List.perm_insertionSort pairLe _).mem_iff, List.mem_dedup]
    exact List.mem_map_of_mem tokKey ht
  have h := tokenOrderWords_perm (stripTokens raw origW origH procW procH)
    (emitGroupsStruct 0 none (groupsOf (stripTokens raw origW origH procW procH)))
    hnd hcnt htk
  rw [emitGroupsStruct_flat] at h
  exact h

/-- Claim-level page fact: every word's interval slices the page text to the
word's text, with the interval inside the page text. -/
theorem extractPage_slice (raw : List RawToken) (origW origH procW procH pn : Nat) :
    ∀ w ∈ (extractPage raw origW origH procW procH pn).pageData.words,
      w.charEnd = w.charStart + w.text.length ∧
      w.charEnd ≤ (extractPage raw origW origH procW procH pn).text.length ∧
      strSlice (extractPage raw origW origH procW procH pn).text
        w.charStart w.charEnd = w.text := by
  intro w hw0
  have hw := (extractPage_words_perm raw origW origH procW procH pn).mem_iff.mp hw0
  have hspec := emitGroups_spec (groupsOf (stripTokens raw origW origH procW procH))
    0 none [] rfl w hw
  have htext := emitGroups_texts (groupsOf (stripTokens raw origW origH procW procH))
    (fun s => s ≠ [] ∧ ∀ c, s.getLast? = some c → isPyWs c = false) 0 none
    (fun g hg t ht =>
      stripTokens_stripped raw origW origH procW procH t
        ((groupsOf_mem _ g hg).2 t ht)) w hw
  obtain ⟨hce, _, _, hslice⟩ := hspec
  rw [List.nil_append] at hslice
  obtain ⟨hne, hlastc⟩ := htext
  -- the character just before `charEnd` is the word's last character, not '\n'
  obtain ⟨c, hc⟩ : ∃ c, w.text.getLast? = some c := by
    cases hgl : w.text.getLast? with
    | none => rw [List.getLast?_eq_none_iff] at hgl; exact absurd hgl hne
    | some c => exact ⟨c, rfl⟩
  have hcnws := hlastc c hc
  have hcnl : c ≠ '\n' := by
    intro h
    rw [h, isPyWs_nl] at hcnws
    exact Bool.true_eq_false.mp hcnws
  have hget := strSlice_getLast _ _ _ hne (by rw [← hce]; exact hslice)
  rw [hc] at hget
  have hlt := lt_length_rstripNl _ _ _ (by rw [← hce] at hget; exact hget) hcnl
  have hle : w.charEnd ≤ (rstripNl
      (emitGroups 0 none (groupsOf (stripTokens raw origW origH procW procH))).2.1).length := by
    have hpos : 0 < w.text.length := List.length_pos.mpr hne
    omega
  refine ⟨hce, hle, ?_⟩
  show strSlice (rstripNl _) w.charStart w.charEnd = w.text
  rw [← strSlice_rstripNl _ _ _ (by omega) hle]
  exact hslice

/-- Some word of a nonempty page starts at offset 0 (the emission-first word;
it need not be `words[0]`, since the list keeps raw token order). -/
theorem extractPage_exists_start0 (raw : List RawToken) (origW origH procW procH pn : Nat)
    (hne : (extractPage raw origW origH procW procH pn).pageData.words ≠ []) :
    ∃ w ∈ (extractPage raw origW origH procW procH pn).pageData.words,
      w.charStart = 0 := by
  have hperm := extractPage_words_perm raw origW origH procW procH pn
  have hene : (emitGroups 0 none
      (groupsOf (stripTokens raw origW origH procW procH))).2.2 ≠ [] := by
    intro hnil
    rw [hnil] at hperm
    exact hne hperm.eq_nil
  have hgne : groupsOf (stripTokens raw origW origH procW procH) ≠ [] := by
    intro hnil
    apply hene
    rw [hnil]
    rfl
  obtain ⟨g₀, rest, hsplit⟩ := List.exists_cons_of_ne_nil hgne
  obtain ⟨w₀, hw₀, hcs⟩ := emitGroups_head _ 0 g₀ rest hsplit
    (groupsOf_mem _ g₀ (by rw [hsplit]; exact List.mem_cons_self _ _)).1
  refine ⟨w₀, ?_, hcs⟩
  rw [hperm.mem_iff]
  exact List.mem_of_mem_head? hw₀

/-- Some word of a nonempty page ends exactly at the page text's length (the
emission-last word; it need not be `words[-1]`). -/
theorem extractPage_exists_end_len (raw : List RawToken) (origW origH procW procH pn : Nat)
    (hne : (extractPage raw origW origH procW procH pn).pageData.words ≠ []) :
    ∃ w ∈ (extractPage raw origW origH procW procH pn).pageData.words,
      w.charEnd = (extractPage raw origW origH procW procH pn).text.length := by
  have hperm := extractPage_words_perm raw origW origH procW procH pn
  have hene : (emitGroups 0 none
      (groupsOf (stripTokens raw origW origH procW procH))).2.2 ≠ [] := by
    intro hnil
    rw [hnil] at hperm
    exact hne hperm.eq_nil
  have hgne : groupsOf (stripTokens raw origW origH procW procH) ≠ [] := by
    intro hnil
    apply hene
    rw [hnil]
    rfl
  obtain ⟨wl, pfx, hlast, hparts, hce⟩ := emitGroups_last
    (groupsOf (stripTokens raw origW origH procW procH)) 0 none hgne
    (fun g hg => (groupsOf_mem _ g hg).1)
  have hmem : wl ∈ (emitGroups 0 none
      (groupsOf (stripTokens raw origW origH procW procH))).2.2 :=
    List.mem_of_mem_getLast? hlast
  refine ⟨wl, hperm.mem_iff.mpr hmem, ?_⟩
  have htext := emitGroups_texts (groupsOf (stripTokens raw origW origH procW procH))
    (fun s => s ≠ [] ∧ ∀ c, s.getLast? = some c → isPyWs c = false) 0 none
    (fun g hg t ht =>
      stripTokens_stripped raw origW origH procW procH t
        ((groupsOf_mem _ g hg).2 t ht)) wl hmem
  obtain ⟨hne2, hlastc⟩ := htext
  obtain ⟨c, hc⟩ : ∃ c, wl.text.getLast? = some c := by
    cases hgl : wl.text.getLast? with
    | none => rw [List.getLast?_eq_none_iff] at hgl; exact absurd hgl hne2
    | some c => exact ⟨c, rfl⟩
  have hcnl : (c == '\n') = false := by
    have := hlastc c hc
    cases hcc : (c == '\n') with
    | false => rfl
    | true =>
      rw [show c = '\n' from by simpa using hcc, isPyWs_nl] at this
      exact absurd this (by simp)
  show wl.charEnd = (rstripNl _).length
  rw [hparts, rstripNl_append_nl, rstripNl_of_getLast _ c ?hc hcnl]
  · rw [List.length_append]
    omega
  case hc =>
    rw [List.getLast?_append_of_ne_nil _ hne2]
    exact hc

/-! ### Multi-page (PDF) facts -/

theorem ocrPdfAux_slice (pagesIn : List PdfPageInput) : ∀ off pnum pre,
    pre.length = off →
    ∀ pg ∈ (ocrPdfAux off pnum pagesIn).1, ∀ w ∈ pg.words,
      strSlice (pre ++ joinSep pageSeparator (ocrPdfAux off pnum pagesIn).2)
        w.charStart w.charEnd = w.text := by
  induction pagesIn with
  | nil => intro off pnum pre hpre pg hpg; simp [ocrPdfAux] at hpg
  | cons p rest ih =>
    intro off pnum pre hpre pg hpg w hw
    simp only [ocrPdfAux] at hpg ⊢
    rcases List.mem_cons.mp hpg with rfl | hpg2
    · simp only at hw
      obtain ⟨w', hw', hshift⟩ := List.mem_map.mp hw
      obtain ⟨hce, hlen, hsl⟩ :=
        extractPage_slice p.raw p.origW p.origH p.procW p.procH pnum w' hw'
      rw [← hshift]
      simp only [shiftWord]
      rw [Nat.add_comm w'.charStart off, Nat.add_comm w'.charEnd off, ← hpre]
      cases rest with
      | nil =>
        simp only [ocrPdfAux, joinSep]
        rw [strSlice_shift]
        exact hsl
      | cons p' rest' =>
        simp only [ocrPdfAux, joinSep]
        rw [strSlice_shift, List.append_assoc]
        rw [strSlice_append_of_le _ _ _ _ (by omega) hlen]
        exact hsl
    · cases rest with
      | nil => simp [ocrPdfAux] at hpg2
      | cons p' rest' =>
        have hrec := ih
          (off + (extractPage p.raw p.origW p.origH p.procW p.procH pnum).text.length +
            pageSeparator.length)
          (pnum + 1)
          (pre ++ (extractPage p.raw p.origW p.origH p.procW p.procH pnum).text ++
            pageSeparator)
          (by simp only [List.length_append]; omega) pg hpg2 w hw
        simp only [ocrPdfAux, joinSep] at hrec ⊢
        convert hrec using 2
        simp [List.append_assoc]

theorem ocrPdfAux_pageBreak (pagesIn : List PdfPageInput) : ∀ off pnum k pgk pgk1,
    (ocrPdfAux off pnum pagesIn).1.get? k = some pgk →
    (ocrPdfAux off pnum pagesIn).1.get? (k + 1) = some pgk1 →
    pgk.words ≠ [] → pgk1.words ≠ [] →
    ∃ wl ∈ pgk.words, ∃ w0 ∈ pgk1.words,
      w0.charStart = wl.charEnd + pageSeparator.length ∧
      (∀ w ∈ pgk.words, w.charEnd ≤ wl.charEnd) ∧
      (∀ w ∈ pgk1.words, w0.charStart ≤ w.charStart) := by
  induction pagesIn with
  | nil => intro off pnum k pgk pgk1 h1 _ _ _; simp [ocrPdfAux] at h1
  | cons p rest ih =>
    intro off pnum k pgk pgk1 h1 h2 hne hne1
    simp only [ocrPdfAux] at h1 h2
    cases k with
    | zero =>
      simp only [List.get?_cons_zero, Option.some.injEq] at h1
      cases hr : rest with
      | nil =>
        rw [hr] at h2
        simp [ocrPdfAux] at h2
      | cons p' rest' =>
        rw [hr] at h2
        simp only [List.get?_cons_succ, List.get?_cons_zero] at h2
        simp only [ocrPdfAux, List.get?_cons_zero, Option.some.injEq] at h2
        have hbne : (extractPage p.raw p.origW p.origH p.procW
            p.procH pnum).pageData.words ≠ [] := by
          intro hnil
          apply hne
          rw [← h1]
          show ((extractPage p.raw p.origW p.origH p.procW p.procH
            pnum).pageData.words.map (shiftWord off)) = []
          rw [hnil]
          rfl
        have hb1ne : (extractPage p'.raw p'.origW p'.origH p'.procW
            p'.procH (pnum + 1)).pageData.words ≠ [] := by
          intro hnil
          apply hne1
          rw [← h2]
          show ((extractPage p'.raw p'.origW p'.origH p'.procW p'.procH
            (pnum + 1)).pageData.words.map (shiftWord (off +
              (extractPage p.raw p.origW p.origH p.procW p.procH pnum).text.length +
              pageSeparator.length))) = []
          rw [hnil]
          rfl
        obtain ⟨wlb, hwlb, hwlce⟩ := extractPage_exists_end_len p.raw p.origW p.origH
          p.procW p.procH pnum hbne
        obtain ⟨w0b, hw0b, hw0cs⟩ := extractPage_exists_start0 p'.raw p'.origW p'.origH
          p'.procW p'.procH (pnum + 1) hb1ne
        refine ⟨shiftWord off wlb, ?_,
          shiftWord (off +
            (extractPage p.raw p.origW p.origH p.procW p.procH pnum).text.length +
            pageSeparator.length) w0b, ?_, ?_, ?_, ?_⟩
        · rw [← h1]
          show shiftWord off wlb ∈ (extractPage p.raw p.origW p.origH p.procW p.procH
            pnum).pageData.words.map (shiftWord off)
          exact List.mem_map_of_mem _ hwlb
        · rw [← h2]
          show _ ∈ (extractPage p'.raw p'.origW p'.origH p'.procW p'.procH
            (pnum + 1)).pageData.words.map _
          exact List.mem_map_of_mem _ hw0b
        · show w0b.charStart + (off +
            (extractPage p.raw p.origW p.origH p.procW p.procH pnum).text.length +
            pageSeparator.length) = wlb.charEnd + off + pageSeparator.length
          rw [hw0cs, hwlce]
          omega
        · intro w hw
          rw [← h1] at hw
          have hw2 : w ∈ (extractPage p.raw p.origW p.origH p.procW p.procH
            pnum).pageData.words.map (shiftWord off) := hw
          obtain ⟨wb, hwb, rfl⟩ := List.mem_map.mp hw2
          have hle := (extractPage_slice p.raw p.origW p.origH p.procW p.procH
            pnum wb hwb).2.1
          show wb.charEnd + off ≤ wlb.charEnd + off
          rw [hwlce]
          omega
        · intro w hw
          rw [← h2] at hw
          have hw2 : w ∈ (extractPage p'.raw p'.origW p'.origH p'.procW p'.procH
            (pnum + 1)).pageData.words.map (shiftWord (off +
              (extractPage p.raw p.origW p.origH p.procW p.procH pnum).text.length +
              pageSeparator.length)) := hw
          obtain ⟨wb, hwb, rfl⟩ := List.mem_map.mp hw2
          show w0b.charStart + (off +
            (extractPage p.raw p.origW p.origH p.procW p.procH pnum).text.length +
            pageSeparator.length) ≤ wb.charStart + (off +
            (extractPage p.raw p.origW p.origH p.procW p.procH pnum).text.length +
            pageSeparator.length)
          rw [hw0cs]
          omega
    | succ k2 =>
      simp only [List.get?_cons_succ] at h1 h2
      exact ih _ _ k2 pgk pgk1 h1 h2 hne hne1

/-- C1: for every document processed by the OCR service (single image or
multi-page PDF) and for every word in the returned OCR geometry, slicing the
returned full text with the word's character interval yields exactly the
word's text: `full_text[w.char_start:w.char_end] == w.text`. -/
theorem claim_C1_full_text_slices_words :
    (∀ raw oW oH pW pH, ∀ pg ∈ (ocrImage raw oW oH pW pH).pages, ∀ w ∈ pg.words,
      strSlice (ocrImage raw oW oH pW pH).text w.charStart w.charEnd = w.text) ∧
    (∀ pagesIn, ∀ pg ∈ (ocrPdf pagesIn).pages, ∀ w ∈ pg.words,
      strSlice (ocrPdf pagesIn).text w.charStart w.charEnd = w.text) := by
  constructor
  · intro raw oW oH pW pH pg hpg w hw
    simp only [ocrImage, List.mem_singleton] at hpg
    subst hpg
    exact (extractPage_slice raw oW oH pW pH 1 w hw).2.2
  · intro pagesIn pg hpg w hw
    have h := ocrPdfAux_slice pagesIn 0 1 [] rfl pg hpg w hw
    simpa using h

/-- Witness for C1 at a concrete one-token image. -/
theorem claim_C1_witness :
    (⟨1, 10, 10, [⟨"Hi".toList, 1, 2, 3, 4, 90, 0, 2⟩]⟩ : PageG) ∈
      (ocrImage [⟨"Hi".toList, 1, 2, 3, 4, 90, 1, 1⟩] 10 10 10 10).pages ∧
    (⟨"Hi".toList, 1, 2, 3, 4, 90, 0, 2⟩ : Word) ∈
      (⟨1, 10, 10, [⟨"Hi".toList, 1, 2, 3, 4, 90, 0, 2⟩]⟩ : PageG).words ∧
    strSlice (ocrImage [⟨"Hi".toList, 1, 2, 3, 4, 90, 1, 1⟩] 10 10 10 10).text
      (⟨"Hi".toList, 1, 2, 3, 4, 90, 0, 2⟩ : Word).charStart
      (⟨"Hi".toList, 1, 2, 3, 4, 90, 0, 2⟩ : Word).charEnd =
      (⟨"Hi".toList, 1, 2, 3, 4, 90, 0, 2⟩ : Word).text :=
  ⟨by decide, by decide,
    claim_C1_full_text_slices_words.1 [⟨"Hi".toList, 1, 2, 3, 4, 90, 1, 1⟩] 10 10 10 10
      ⟨1, 10, 10, [⟨"Hi".toList, 1, 2, 3, 4, 90, 0, 2⟩]⟩ (by decide)
      ⟨"Hi".toList, 1, 2, 3, 4, 90, 0, 2⟩ (by decide)⟩

/-- C4 counterexample.  The source stores `words` in raw token order while the
offsets follow the sorted-`(block, line)` emission; since Tesseract's
`line_num` restarts per paragraph, a page whose third token shares the line
key `(1, 1)` with the first makes `words[-1]` the mid-page word `c`
(`char_end` 3), while page 2's first word starts at `22 = len("a c\nb") + 17`:
`page[1].words[0].char_start ≠ page[0].words[-1].char_end + len(sep)`.  The
offset-MAXIMAL word `b` (`char_end` 5) does satisfy `5 + 17 = 22`. -/
theorem claim_C4_counterexample :
    (ocrPdf [⟨[⟨"a".toList, 0, 0, 1, 1, 90, 1, 1⟩, ⟨"b".toList, 0, 0, 1, 1, 90, 1, 2⟩,
               ⟨"c".toList, 0, 0, 1, 1, 90, 1, 1⟩], 10, 10, 10, 10⟩,
             ⟨[⟨"d".toList, 0, 0, 1, 1, 90, 1, 1⟩], 10, 10, 10, 10⟩]).pages.get? 0 =
      some ⟨1, 10, 10, [⟨"a".toList, 0, 0, 1, 1, 90, 0, 1⟩,
                        ⟨"b".toList, 0, 0, 1, 1, 90, 4, 5⟩,
                        ⟨"c".toList, 0, 0, 1, 1, 90, 2, 3⟩]⟩ ∧
    (ocrPdf [⟨[⟨"a".toList, 0, 0, 1, 1, 90, 1, 1⟩, ⟨"b".toList, 0, 0, 1, 1, 90, 1, 2⟩,
               ⟨"c".toList, 0, 0, 1, 1, 90, 1, 1⟩], 10, 10, 10, 10⟩,
             ⟨[⟨"d".toList, 0, 0, 1, 1, 90, 1, 1⟩], 10, 10, 10, 10⟩]).pages.get? 1 =
      some ⟨2, 10, 10, [⟨"d".toList, 0, 0, 1, 1, 90, 22, 23⟩]⟩ ∧
    ([⟨"a".toList, 0, 0, 1, 1, 90, 0, 1⟩, ⟨"b".toList, 0, 0, 1, 1, 90, 4, 5⟩,
      ⟨"c".toList, 0, 0, 1, 1, 90, 2, 3⟩] : List Word).getLast? =
      some ⟨"c".toList, 0, 0, 1, 1, 90, 2, 3⟩ ∧
    ([⟨"d".toList, 0, 0, 1, 1, 90, 22, 23⟩] : List Word).head? =
      some ⟨"d".toList, 0, 0, 1, 1, 90, 22, 23⟩ ∧
    (⟨"d".toList, 0, 0, 1, 1, 90, 22, 23⟩ : Word).charStart ≠
      (⟨"c".toList, 0, 0, 1, 1, 90, 2, 3⟩ : Word).charEnd + pageSeparator.length ∧
    (⟨"d".toList, 0, 0, 1, 1, 90, 22, 23⟩ : Word).charStart =
      (⟨"b".toList, 0, 0, 1, 1, 90, 4, 5⟩ : Word).charEnd + pageSeparator.length := by
  refine ⟨by decide, by decide, by decide, rfl, by decide, by decide⟩

/-- C4 (amended): for every multi-page document with at least one word on
pages k and k+1, the OFFSET-MAXIMAL word of page k and the OFFSET-MINIMAL
word of page k+1 are separated by exactly the page separator's length:
`min char_start` over page k+1 equals `max char_end` over page k plus
`len(PAGE_SEPARATOR)`.  (Unamended, with `words[0]`/`words[-1]`, the claim is
false: the `words` list keeps the raw Tesseract token order, and since
`line_num` restarts per paragraph, `words[-1]` need not be the offset-final
word — see the counterexample.) -/
theorem claim_C4_offsets_resume_after_separator (pagesIn : List PdfPageInput)
    (k : Nat) (pgk pgk1 : PageG)
    (h1 : (ocrPdf pagesIn).pages.get? k = some pgk)
    (h2 : (ocrPdf pagesIn).pages.get? (k + 1) = some pgk1)
    (hk : pgk.words ≠ []) (hk1 : pgk1.words ≠ []) :
    ∃ wl ∈ pgk.words, ∃ w0 ∈ pgk1.words,
      w0.charStart = wl.charEnd + pageSeparator.length ∧
      (∀ w ∈ pgk.words, w.charEnd ≤ wl.charEnd) ∧
      (∀ w ∈ pgk1.words, w0.charStart ≤ w.charStart) :=
  ocrPdfAux_pageBreak pagesIn 0 1 k pgk pgk1 h1 h2 hk hk1

/-- Witness for C4 at a concrete two-page PDF (page texts "Ha" and "Wo",
separator length 17, so page 2's word starts at `2 + 17 = 19`). -/
theorem claim_C4_witness :
    ∃ wl ∈ (⟨1, 10, 10, [⟨"Ha".toList, 0, 0, 1, 1, 80, 0, 2⟩]⟩ : PageG).words,
    ∃ w0 ∈ (⟨2, 10, 10, [⟨"Wo".toList, 0, 0, 1, 1, 80, 19, 21⟩]⟩ : PageG).words,
      w0.charStart = wl.charEnd + pageSeparator.length ∧
      (∀ w ∈ (⟨1, 10, 10, [⟨"Ha".toList, 0, 0, 1, 1, 80, 0, 2⟩]⟩ : PageG).words,
        w.charEnd ≤ wl.charEnd) ∧
      (∀ w ∈ (⟨2, 10, 10, [⟨"Wo".toList, 0, 0, 1, 1, 80, 19, 21⟩]⟩ : PageG).words,
        w0.charStart ≤ w.charStart) :=
  claim_C4_offsets_resume_after_separator
    [⟨[⟨"Ha".toList, 0, 0, 1, 1, 80, 1, 1⟩], 10, 10, 10, 10⟩,
     ⟨[⟨"Wo".toList, 0, 0, 1, 1, 80, 1, 1⟩], 10, 10, 10, 10⟩] 0
    ⟨1, 10, 10, [⟨"Ha".toList, 0, 0, 1, 1, 80, 0, 2⟩]⟩
    ⟨2, 10, 10, [⟨"Wo".toList, 0, 0, 1, 1, 80, 19, 21⟩]⟩
    (by decide) (by decide) (by decide) (by decide)

/-- Counterexample to C8: an image of size 1600 × 800 has its shorter side
(800) below 1500 px, yet `_preprocess_image` does not scale it, because the
code tests only the width `w` of `img.size` against 1500. -/
theorem claim_C8_counterexample :
    min 1600 800 < 1500 ∧
    preprocessDims 1600 800 = (1600, 800) ∧
    preprocessDims 1600 800 ≠ (1600 * 2, 800 * 2) := by
  refine ⟨by norm_num, by decide, by decide⟩

/-- C8 amended: the preprocessor doubles the image's dimensions exactly when
the image's WIDTH is below 1500 px (not the shorter side), and applies no
scaling otherwise. -/
theorem claim_C8_upscale_iff_width_lt_1500 (w h : Nat) :
    preprocessDims w h = (w * 2, h * 2) ↔ w < 1500 := by
  unfold preprocessDims
  split
  · simp_all
  · rename_i hw
    constructor
    · intro hEq
      rw [Prod.mk.injEq] at hEq
      omega
    · intro hlt
      exact absurd hlt hw

/-- Counterexample to C3: the Quote Locator applied to the empty quote does
NOT return `None` — tier 1 (`ocr_text.find("")`) succeeds at index 0, so it
returns the degenerate empty span. -/
theorem claim_C3_counterexample :
    locateQuoteInText "abc".toList [] "betrag_brutto" =
      some ⟨0, 0, [], "betrag_brutto", none⟩ ∧
    locateQuoteInText "abc".toList [] "betrag_brutto" ≠ none :=
  ⟨rfl, by decide⟩

/-- C3 amended: on the empty quote the locator returns the degenerate empty
span at position 0 (Python's `find` of the empty string is 0), not `None`;
the quote-to-span builder however skips every quote whose stripped length is
below 2, so an empty quote still contributes no span in the pipeline. -/
theorem claim_C3_empty_quote_degenerate_span :
    (∀ t feld, locateQuoteInText t [] feld = some ⟨0, 0, [], feld, none⟩) ∧
    (∀ t feld, buildSourceSpansFromQuotes t [(feld, [])] = []) :=
  ⟨fun t _ => by cases t <;> rfl, fun _ _ => rfl⟩

/-- C6: the extraction confidence tier is a pure function of K (non-null
fields among document kind, gross amount, issuer, document date) and G
(grounded fields among gross amount, issuer, document date): for a
cash-register slip `hoch` iff K ≥ 3 and G ≥ 1, `mittel` iff not hoch and
K ≥ 2, else `niedrig`; otherwise `hoch` iff K ≥ 4 and G ≥ 2, `mittel` iff
not hoch and K ≥ 2, else `niedrig`. -/
theorem claim_C6_confidence_tier_formula (attrs : PyDict) (spans : List Span) :
    assessConfidence attrs spans =
      (let K := (requiredFields.filter fun f => (pyGet attrs f).isSome).length
       let G := (groundedKeyFields.filter fun f =>
         (spans.map (·.feld)).contains f).length
       if pyGet attrs "beleg_typ" = some (.s "kassenbon".toList) then
         if 3 ≤ K ∧ 1 ≤ G then "hoch" else if 2 ≤ K then "mittel" else "niedrig"
       else
         if 4 ≤ K ∧ 2 ≤ G then "hoch" else if 2 ≤ K then "mittel" else "niedrig") := by
  unfold assessConfidence
  dsimp only
  split_ifs <;> first | rfl | omega

/-! ### Dict lemmas for the merge frame property (C9) -/

theorem find?_cons_eq {α : Type} (f : α → Bool) (a : α) (l : List α) :
    (a :: l).find? f = if f a then some a else l.find? f := by
  cases hf : f a
  · rw [List.find?_cons_of_neg _ (by simp [hf])]
    simp
  · rw [List.find?_cons_of_pos _ hf]
    simp

theorem pyGet_cons (p : String × PyVal) (d : PyDict) (k : String) :
    pyGet (p :: d) k =
      if p.1 == k then
        (match p.2 with | PyVal.null => none | v => some v)
      else pyGet d k := by
  unfold pyGet
  rw [find?_cons_eq]
  cases hp : (p.1 == k) <;> simp [hp]

theorem pyGet_map_replace (d : PyDict) (k k' : String) (v : PyVal)
    (h : k' ≠ k) :
    pyGet (d.map fun p => if p.1 == k then (k, v) else p) k' = pyGet d k' := by
  have hkk' : (k == k') = false := by
    rw [beq_eq_false_iff_ne]
    exact fun hc => h hc.symm
  induction d with
  | nil => rfl
  | cons p rs ih =>
    simp only [List.map_cons]
    by_cases hp : (p.1 == k) = true
    · rw [if_pos hp]
      have hpk : p.1 = k := by simpa using hp
      rw [pyGet_cons, pyGet_cons]
      simp only [hpk, hkk', if_false]
      exact ih
    · rw [if_neg hp]
      rw [pyGet_cons, pyGet_cons]
      by_cases hq : (p.1 == k') = true
      · rw [if_pos hq, if_pos hq]
      · rw [if_neg hq, if_neg hq]
        exact ih

theorem pyGet_append_single (d : PyDict) (k k' : String) (v : PyVal)
    (h : k' ≠ k) :
    pyGet (d ++ [(k, v)]) k' = pyGet d k' := by
  have hkk' : (k == k') = false := by
    rw [beq_eq_false_iff_ne]
    exact fun hc => h hc.symm
  induction d with
  | nil =>
    simp only [List.nil_append]
    rw [pyGet_cons]
    rw [if_neg (by simp [hkk'])]
  | cons p rs ih =>
    simp only [List.cons_append]
    rw [pyGet_cons, pyGet_cons]
    by_cases hq : (p.1 == k') = true
    · rw [if_pos hq, if_pos hq]
    · rw [if_neg hq, if_neg hq]
      exact ih

theorem pyGet_dictSet_ne (d : PyDict) (k : String) (v : PyVal) (k' : String)
    (h : k' ≠ k) : pyGet (dictSet d k v) k' = pyGet d k' := by
  unfold dictSet
  split
  · exact pyGet_map_replace d k k' v h
  · exact pyGet_append_single d k k' v h

theorem merge_fold_preserves (tess vis : PyDict) (f : String) :
    ∀ (fields : List String), (f ∉ fields ∨ (pyGet tess f).isSome) →
    ∀ (acc : PyDict × List String), pyGet acc.1 f = pyGet tess f →
    pyGet (fields.foldl
      (fun (acc : PyDict × List String) field =>
        match pyGet tess field, pyGet vis field with
        | none, some visVal => (dictSet acc.1 field visVal, acc.2 ++ [field])
        | _, _ => acc)
      acc).1 f = pyGet tess f := by
  intro fields
  induction fields with
  | nil => intro _ acc hacc; exact hacc
  | cons g rest ih =>
    intro hf acc hacc
    simp only [List.foldl_cons]
    have hne : pyGet tess g = none → g ≠ f := by
      intro hg hgf
      rcases hf with hf | hf
      · exact hf (by rw [← hgf]; exact List.mem_cons_self _ _)
      · rw [hgf] at hg
        rw [hg] at hf
        exact absurd hf (by simp)
    have hf' : f ∉ rest ∨ (pyGet tess f).isSome := by
      rcases hf with hf | hf
      · exact Or.inl (fun hr => hf (List.mem_cons_of_mem _ hr))
      · exact Or.inr hf
    cases hg : pyGet tess g with
    | some v =>
      dsimp only
      exact ih hf' acc hacc
    | none =>
      cases hv : pyGet vis g with
      | none =>
        dsimp only
        exact ih hf' acc hacc
      | some visVal =>
        dsimp only
        refine ih hf' _ ?_
        show pyGet (dictSet acc.1 g visVal) f = pyGet tess f
        rw [pyGet_dictSet_ne acc.1 g visVal f (Ne.symm (hne hg))]
        exact hacc

/-- C9: the vision dual-pass merge only ever fills the eight key fields; any
field outside that list keeps the text-pass value even when it is null and
the vision pass produced a value, and any field whose text-pass value is
non-null keeps the text-pass value. -/
theorem claim_C9_merge_frame (tess vis : PyDict) :
    (∀ f, f ∉ keyFields → pyGet (mergeExtractions tess vis).1 f = pyGet tess f) ∧
    (∀ f v, pyGet tess f = some v → pyGet (mergeExtractions tess vis).1 f = some v) := by
  constructor
  · intro f hf
    unfold mergeExtractions
    split
    · rfl
    · have h := merge_fold_preserves tess vis f keyFields (Or.inl hf)
        (tess, []) rfl
      dsimp only
      split <;> exact h
  · intro f v hv
    unfold mergeExtractions
    split
    · exact hv
    · have h := merge_fold_preserves tess vis f keyFields
        (Or.inr (by rw [hv]; rfl)) (tess, []) rfl
      rw [← hv]
      dsimp only
      split <;> exact h

/-! ### Column lemmas for `_map_fields` (C10) -/

theorem writeStrField_other {α : Type} (b : Beleg) (d : PyDict) (src : String)
    (set : Beleg → List Char → Beleg) (get : Beleg → α)
    (hset : ∀ b v, get (set b v) = get b) :
    get (writeStrField b d src set) = get b := by
  unfold writeStrField
  cases pyGet d src with
  | none => rfl
  | some v =>
    dsimp only
    split
    · exact hset b (pyStr v)
    · rfl

theorem writeNumField_other {α : Type} (b : Beleg) (d : PyDict) (src : String)
    (set : Beleg → ℚ → Beleg) (get : Beleg → α)
    (hset : ∀ b v, get (set b v) = get b) :
    get (writeNumField b d src set) = get b := by
  unfold writeNumField
  cases pyGet d src with
  | none => rfl
  | some v =>
    dsimp only
    split
    · split
      · exact hset _ _
      · rfl
    · rfl

theorem setDefaultGegenkonto_other {α : Type} (b : Beleg) (get : Beleg → α)
    (hget : ∀ b, get { b with gegenkonto := some "1200".toList } = get b) :
    get (setDefaultGegenkonto b) = get b := by
  unfold setDefaultGegenkonto
  split
  · exact hget b
  · rfl

theorem writeStrField_skip (b : Beleg) (d : PyDict) (src : String)
    (set : Beleg → List Char → Beleg)
    (h : falsyOrNullString (pyGet d src)) :
    writeStrField b d src set = b := by
  unfold writeStrField
  rcases h with h | h | h | h
  · rw [h]
  · rw [h]
    simp [pyTruthy]
  · rw [h]
    simp [pyTruthy]
  · rw [h]
    simp [pyTruthy, pyNotNullStr]

theorem writeNumField_skip (b : Beleg) (d : PyDict) (src : String)
    (set : Beleg → ℚ → Beleg)
    (h : falsyOrNullString (pyGet d src)) :
    writeNumField b d src set = b := by
  unfold writeNumField
  rcases h with h | h | h | h
  · rw [h]
  · rw [h]
    simp [pyTruthy]
  · rw [h]
    simp [pyTruthy]
  · rw [h]
    simp [pyTruthy, pyNotNullStr]

/-- Witness for C9: `materialkosten` is outside the key-field list and keeps
its (null) text-pass value although the vision pass produced one; the
non-null text-pass issuer survives a conflicting vision value. -/
theorem claim_C9_witness :
    ("materialkosten" ∉ keyFields) ∧
    pyGet (mergeExtractions [("aussteller", .s "X".toList)]
      [("materialkosten", .s "9.99".toList), ("aussteller", .s "Y".toList)]).1
      "materialkosten" =
      pyGet [(("aussteller" : String), PyVal.s "X".toList)] "materialkosten" ∧
    pyGet [(("aussteller" : String), PyVal.s "X".toList)] "aussteller" =
      some (.s "X".toList) ∧
    pyGet (mergeExtractions [("aussteller", .s "X".toList)]
      [("materialkosten", .s "9.99".toList), ("aussteller", .s "Y".toList)]).1
      "aussteller" = some (.s "X".toList) :=
  ⟨by decide,
   (claim_C9_merge_frame [("aussteller", .s "X".toList)]
     [("materialkosten", .s "9.99".toList), ("aussteller", .s "Y".toList)]).1
     "materialkosten" (by decide),
   by decide,
   (claim_C9_merge_frame [("aussteller", .s "X".toList)]
     [("materialkosten", .s "9.99".toList), ("aussteller", .s "Y".toList)]).2
     "aussteller" (.s "X".toList) (by decide)⟩

/-- C10: when the orchestrator maps the extracted dict onto receipt columns,
every field whose value is numerically zero, the empty string, None, or the
string "null" leaves the corresponding receipt column unchanged; in
particular a zero gross amount is never written to `betrag_brutto`. -/
theorem claim_C10_falsy_values_leave_columns (b : Beleg) (d : PyDict) :
    (falsyOrNullString (pyGet d "betrag_brutto") →
      (mapFields b d).betragBrutto = b.betragBrutto) ∧
    (falsyOrNullString (pyGet d "beleg_typ") →
      (mapFields b d).belegTyp = b.belegTyp) ∧
    (falsyOrNullString (pyGet d "aussteller") →
      (mapFields b d).aussteller = b.aussteller) ∧
    (falsyOrNullString (pyGet d "beschreibung") →
      (mapFields b d).beschreibung = b.beschreibung) ∧
    (falsyOrNullString (pyGet d "rechnungsnummer") →
      (mapFields b d).rechnungsnummer = b.rechnungsnummer) ∧
    (falsyOrNullString (pyGet d "datum_beleg") →
      (mapFields b d).datumBeleg = b.datumBeleg) ∧
    (falsyOrNullString (pyGet d "steuer_kategorie") →
      (mapFields b d).steuerKategorie = b.steuerKategorie) ∧
    (falsyOrNullString (pyGet d "skr03_konto") →
      (mapFields b d).skr03Konto = b.skr03Konto) ∧
    (falsyOrNullString (pyGet d "skr03_bezeichnung") →
      (mapFields b d).skr03Bezeichnung = b.skr03Bezeichnung) ∧
    (falsyOrNullString (pyGet d "bu_schluessel") →
      (mapFields b d).buSchluessel = b.buSchluessel) ∧
    (falsyOrNullString (pyGet d "betrag_netto") →
      (mapFields b d).betragNetto = b.betragNetto) ∧
    (falsyOrNullString (pyGet d "mwst_satz") →
      (mapFields b d).mwstSatz = b.mwstSatz) ∧
    (falsyOrNullString (pyGet d "mwst_betrag") →
      (mapFields b d).mwstBetrag = b.mwstBetrag) ∧
    (falsyOrNullString (pyGet d "arbeitskosten_35a") →
      (mapFields b d).paragraph35aAnteil = b.paragraph35aAnteil) ∧
    (falsyOrNullString (pyGet d "materialkosten") →
      (mapFields b d).materialkosten = b.materialkosten) := by
  refine ⟨?_, ?_, ?_, ?_, ?_, ?_, ?_, ?_, ?_, ?_, ?_, ?_, ?_, ?_, ?_⟩
  · intro h
    simp only [mapFields]
    rw [setDefaultGegenkonto_other _ Beleg.betragBrutto (fun _ => rfl)]
    rw [writeNumField_other _ d "materialkosten" (fun b v => { b with materialkosten := some v }) Beleg.betragBrutto (fun _ _ => rfl)]
    rw [writeNumField_other _ d "arbeitskosten_35a" (fun b v => { b with paragraph35aAnteil := some v }) Beleg.betragBrutto (fun _ _ => rfl)]
    rw [writeNumField_other _ d "mwst_betrag" (fun b v => { b with mwstBetrag := some v }) Beleg.betragBrutto (fun _ _ => rfl)]
    rw [writeNumField_other _ d "mwst_satz" (fun b v => { b with mwstSatz := some v }) Beleg.betragBrutto (fun _ _ => rfl)]
    rw [writeNumField_other _ d "betrag_netto" (fun b v => { b with betragNetto := some v }) Beleg.betragBrutto (fun _ _ => rfl)]
    rw [writeNumField_skip _ d "betrag_brutto" (fun b v => { b with betragBrutto := some v }) h]
    rw [writeStrField_other _ d "bu_schluessel" (fun b v => { b with buSchluessel := some v }) Beleg.betragBrutto (fun _ _ => rfl)]
    rw [writeStrField_other _ d "skr03_bezeichnung" (fun b v => { b with skr03Bezeichnung := some v }) Beleg.betragBrutto (fun _ _ => rfl)]
    rw [writeStrField_other _ d "skr03_konto" (fun b v => { b with skr03Konto := some v }) Beleg.betragBrutto (fun _ _ => rfl)]
    rw [writeStrField_other _ d "steuer_kategorie" (fun b v => { b with steuerKategorie := some v }) Beleg.betragBrutto (fun _ _ => rfl)]
    rw [writeStrField_other _ d "datum_beleg" (fun b v => { b with datumBeleg := some v }) Beleg.betragBrutto (fun _ _ => rfl)]
    rw [writeStrField_other _ d "rechnungsnummer" (fun b v => { b with rechnungsnummer := some v }) Beleg.betragBrutto (fun _ _ => rfl)]
    rw [writeStrField_other _ d "beschreibung" (fun b v => { b with beschreibung := some v }) Beleg.betragBrutto (fun _ _ => rfl)]
    rw [writeStrField_other _ d "aussteller" (fun b v => { b with aussteller := some v }) Beleg.betragBrutto (fun _ _ => rfl)]
    rw [writeStrField_other _ d "beleg_typ" (fun b v => { b with belegTyp := some v }) Beleg.betragBrutto (fun _ _ => rfl)]
  · intro h
    simp only [mapFields]
    rw [setDefaultGegenkonto_other _ Beleg.belegTyp (fun _ => rfl)]
    rw [writeNumField_other _ d "materialkosten" (fun b v => { b with materialkosten := some v }) Beleg.belegTyp (fun _ _ => rfl)]
    rw [writeNumField_other _ d "arbeitskosten_35a" (fun b v => { b with paragraph35aAnteil := some v }) Beleg.belegTyp (fun _ _ => rfl)]
    rw [writeNumField_other _ d "mwst_betrag" (fun b v => { b with mwstBetrag := some v }) Beleg.belegTyp (fun _ _ => rfl)]
    rw [writeNumField_other _ d "mwst_satz" (fun b v => { b with mwstSatz := some v }) Beleg.belegTyp (fun _ _ => rfl)]
    rw [writeNumField_other _ d "betrag_netto" (fun b v => { b with betragNetto := some v }) Beleg.belegTyp (fun _ _ => rfl)]
    rw [writeNumField_other _ d "betrag_brutto" (fun b v => { b with betragBrutto := some v }) Beleg.belegTyp (fun _ _ => rfl)]
    rw [writeStrField_other _ d "bu_schluessel" (fun b v => { b with buSchluessel := some v }) Beleg.belegTyp (fun _ _ => rfl)]
    rw [writeStrField_other _ d "skr03_bezeichnung" (fun b v => { b with skr03Bezeichnung := some v }) Beleg.belegTyp (fun _ _ => rfl)]
    rw [writeStrField_other _ d "skr03_konto" (fun b v => { b with skr03Konto := some v }) Beleg.belegTyp (fun _ _ => rfl)]
    rw [writeStrField_other _ d "steuer_kategorie" (fun b v => { b with steuerKategorie := some v }) Beleg.belegTyp (fun _ _ => rfl)]
    rw [writeStrField_other _ d "datum_beleg" (fun b v => { b with datumBeleg := some v }) Beleg.belegTyp (fun _ _ => rfl)]
    rw [writeStrField_other _ d "rechnungsnummer" (fun b v => { b with rechnungsnummer := some v }) Beleg.belegTyp (fun _ _ => rfl)]
    rw [writeStrField_other _ d "beschreibung" (fun b v => { b with beschreibung := some v }) Beleg.belegTyp (fun _ _ => rfl)]
    rw [writeStrField_other _ d "aussteller" (fun b v => { b with aussteller := some v }) Beleg.belegTyp (fun _ _ => rfl)]
    rw [writeStrField_skip _ d "beleg_typ" (fun b v => { b with belegTyp := some v }) h]
  · intro h
    simp only [mapFields]
    rw [setDefaultGegenkonto_other _ Beleg.aussteller (fun _ => rfl)]
    rw [writeNumField_other _ d "materialkosten" (fun b v => { b with materialkosten := some v }) Beleg.aussteller (fun _ _ => rfl)]
    rw [writeNumField_other _ d "arbeitskosten_35a" (fun b v => { b with paragraph35aAnteil := some v }) Beleg.aussteller (fun _ _ => rfl)]
    rw [writeNumField_other _ d "mwst_betrag" (fun b v => { b with mwstBetrag := some v }) Beleg.aussteller (fun _ _ => rfl)]
    rw [writeNumField_other _ d "mwst_satz" (fun b v => { b with mwstSatz := some v }) Beleg.aussteller (fun _ _ => rfl)]
    rw [writeNumField_other _ d "betrag_netto" (fun b v => { b with betragNetto := some v }) Beleg.aussteller (fun _ _ => rfl)]
    rw [writeNumField_other _ d "betrag_brutto" (fun b v => { b with betragBrutto := some v }) Beleg.aussteller (fun _ _ => rfl)]
    rw [writeStrField_other _ d "bu_schluessel" (fun b v => { b with buSchluessel := some v }) Beleg.aussteller (fun _ _ => rfl)]
    rw [writeStrField_other _ d "skr03_bezeichnung" (fun b v => { b with skr03Bezeichnung := some v }) Beleg.aussteller (fun _ _ => rfl)]
    rw [writeStrField_other _ d "skr03_konto" (fun b v => { b with skr03Konto := some v }) Beleg.aussteller (fun _ _ => rfl)]
    rw [writeStrField_other _ d "steuer_kategorie" (fun b v => { b with steuerKategorie := some v }) Beleg.aussteller (fun _ _ => rfl)]
    rw [writeStrField_other _ d "datum_beleg" (fun b v => { b with datumBeleg := some v }) Beleg.aussteller (fun _ _ => rfl)]
    rw [writeStrField_other _ d "rechnungsnummer" (fun b v => { b with rechnungsnummer := some v }) Beleg.aussteller (fun _ _ => rfl)]
    rw [writeStrField_other _ d "beschreibung" (fun b v => { b with beschreibung := some v }) Beleg.aussteller (fun _ _ => rfl)]
    rw [writeStrField_skip _ d "aussteller" (fun b v => { b with aussteller := some v }) h]
    rw [writeStrField_other _ d "beleg_typ" (fun b v => { b with belegTyp := some v }) Beleg.aussteller (fun _ _ => rfl)]
  · intro h
    simp only [mapFields]
    rw [setDefaultGegenkonto_other _ Beleg.beschreibung (fun _ => rfl)]
    rw [writeNumField_other _ d "materialkosten" (fun b v => { b with materialkosten := some v }) Beleg.beschreibung (fun _ _ => rfl)]
    rw [writeNumField_other _ d "arbeitskosten_35a" (fun b v => { b with paragraph35aAnteil := some v }) Beleg.beschreibung (fun _ _ => rfl)]
    rw [writeNumField_other _ d "mwst_betrag" (fun b v => { b with mwstBetrag := some v }) Beleg.beschreibung (fun _ _ => rfl)]
    rw [writeNumField_other _ d "mwst_satz" (fun b v => { b with mwstSatz := some v }) Beleg.beschreibung (fun _ _ => rfl)]
    rw [writeNumField_other _ d "betrag_netto" (fun b v => { b with betragNetto := some v }) Beleg.beschreibung (fun _ _ => rfl)]
    rw [writeNumField_other _ d "betrag_brutto" (fun b v => { b with betragBrutto := some v }) Beleg.beschreibung (fun _ _ => rfl)]
    rw [writeStrField_other _ d "bu_schluessel" (fun b v => { b with buSchluessel := some v }) Beleg.beschreibung (fun _ _ => rfl)]
    rw [writeStrField_other _ d "skr03_bezeichnung" (fun b v => { b with skr03Bezeichnung := some v }) Beleg.beschreibung (fun _ _ => rfl)]
    rw [writeStrField_other _ d "skr03_konto" (fun b v => { b with skr03Konto := some v }) Beleg.beschreibung (fun _ _ => rfl)]
    rw [writeStrField_other _ d "steuer_kategorie" (fun b v => { b with steuerKategorie := some v }) Beleg.beschreibung (fun _ _ => rfl)]
    rw [writeStrField_other _ d "datum_beleg" (fun b v => { b with datumBeleg := some v }) Beleg.beschreibung (fun _ _ => rfl)]
    rw [writeStrField_other _ d "rechnungsnummer" (fun b v => { b with rechnungsnummer := some v }) Beleg.beschreibung (fun _ _ => rfl)]
    rw [writeStrField_skip _ d "beschreibung" (fun b v => { b with beschreibung := some v }) h]
    rw [writeStrField_other _ d "aussteller" (fun b v => { b with aussteller := some v }) Beleg.beschreibung (fun _ _ => rfl)]
    rw [writeStrField_other _ d "beleg_typ" (fun b v => { b with belegTyp := some v }) Beleg.beschreibung (fun _ _ => rfl)]
  · intro h
    simp only [mapFields]
    rw [setDefaultGegenkonto_other _ Beleg.rechnungsnummer (fun _ => rfl)]
    rw [writeNumField_other _ d "materialkosten" (fun b v => { b with materialkosten := some v }) Beleg.rechnungsnummer (fun _ _ => rfl)]
    rw [writeNumField_other _ d "arbeitskosten_35a" (fun b v => { b with paragraph35aAnteil := some v }) Beleg.rechnungsnummer (fun _ _ => rfl)]
    rw [writeNumField_other _ d "mwst_betrag" (fun b v => { b with mwstBetrag := some v }) Beleg.rechnungsnummer (fun _ _ => rfl)]
    rw [writeNumField_other _ d "mwst_satz" (fun b v => { b with mwstSatz := some v }) Beleg.rechnungsnummer (fun _ _ => rfl)]
    rw [writeNumField_other _ d "betrag_netto" (fun b v => { b with betragNetto := some v }) Beleg.rechnungsnummer (fun _ _ => rfl)]
    rw [writeNumField_other _ d "betrag_brutto" (fun b v => { b with betragBrutto := some v }) Beleg.rechnungsnummer (fun _ _ => rfl)]
    rw [writeStrField_other _ d "bu_schluessel" (fun b v => { b with buSchluessel := some v }) Beleg.rechnungsnummer (fun _ _ => rfl)]
    rw [writeStrField_other _ d "skr03_bezeichnung" (fun b v => { b with skr03Bezeichnung := some v }) Beleg.rechnungsnummer (fun _ _ => rfl)]
    rw [writeStrField_other _ d "skr03_konto" (fun b v => { b with skr03Konto := some v }) Beleg.rechnungsnummer (fun _ _ => rfl)]
    rw [writeStrField_other _ d "steuer_kategorie" (fun b v => { b with steuerKategorie := some v }) Beleg.rechnungsnummer (fun _ _ => rfl)]
    rw [writeStrField_other _ d "datum_beleg" (fun b v => { b with datumBeleg := some v }) Beleg.rechnungsnummer (fun _ _ => rfl)]
    rw [writeStrField_skip _ d "rechnungsnummer" (fun b v => { b with rechnungsnummer := some v }) h]
    rw [writeStrField_other _ d "beschreibung" (fun b v => { b with beschreibung := some v }) Beleg.rechnungsnummer (fun _ _ => rfl)]
    rw [writeStrField_other _ d "aussteller" (fun b v => { b with aussteller := some v }) Beleg.rechnungsnummer (fun _ _ => rfl)]
    rw [writeStrField_other _ d "beleg_typ" (fun b v => { b with belegTyp := some v }) Beleg.rechnungsnummer (fun _ _ => rfl)]
  · intro h
    simp only [mapFields]
    rw [setDefaultGegenkonto_other _ Beleg.datumBeleg (fun _ => rfl)]
    rw [writeNumField_other _ d "materialkosten" (fun b v => { b with materialkosten := some v }) Beleg.datumBeleg (fun _ _ => rfl)]
    rw [writeNumField_other _ d "arbeitskosten_35a" (fun b v => { b with paragraph35aAnteil := some v }) Beleg.datumBeleg (fun _ _ => rfl)]
    rw [writeNumField_other _ d "mwst_betrag" (fun b v => { b with mwstBetrag := some v }) Beleg.datumBeleg (fun _ _ => rfl)]
    rw [writeNumField_other _ d "mwst_satz" (fun b v => { b with mwstSatz := some v }) Beleg.datumBeleg (fun _ _ => rfl)]
    rw [writeNumField_other _ d "betrag_netto" (fun b v => { b with betragNetto := some v }) Beleg.datumBeleg (fun _ _ => rfl)]
    rw [writeNumField_other _ d "betrag_brutto" (fun b v => { b with betragBrutto := some v }) Beleg.datumBeleg (fun _ _ => rfl)]
    rw [writeStrField_other _ d "bu_schluessel" (fun b v => { b with buSchluessel := some v }) Beleg.datumBeleg (fun _ _ => rfl)]
    rw [writeStrField_other _ d "skr03_bezeichnung" (fun b v => { b with skr03Bezeichnung := some v }) Beleg.datumBeleg (fun _ _ => rfl)]
    rw [writeStrField_other _ d "skr03_konto" (fun b v => { b with skr03Konto := some v }) Beleg.datumBeleg (fun _ _ => rfl)]
    rw [writeStrField_other _ d "steuer_kategorie" (fun b v => { b with steuerKategorie := some v }) Beleg.datumBeleg (fun _ _ => rfl)]
    rw [writeStrField_skip _ d "datum_beleg" (fun b v => { b with datumBeleg := some v }) h]
    rw [writeStrField_other _ d "rechnungsnummer" (fun b v => { b with rechnungsnummer := some v }) Beleg.datumBeleg (fun _ _ => rfl)]
    rw [writeStrField_other _ d "beschreibung" (fun b v => { b with beschreibung := some v }) Beleg.datumBeleg (fun _ _ => rfl)]
    rw [writeStrField_other _ d "aussteller" (fun b v => { b with aussteller := some v }) Beleg.datumBeleg (fun _ _ => rfl)]
    rw [writeStrField_other _ d "beleg_typ" (fun b v => { b with belegTyp := some v }) Beleg.datumBeleg (fun _ _ => rfl)]
  · intro h
    simp only [mapFields]
    rw [setDefaultGegenkonto_other _ Beleg.steuerKategorie (fun _ => rfl)]
    rw [writeNumField_other _ d "materialkosten" (fun b v => { b with materialkosten := some v }) Beleg.steuerKategorie (fun _ _ => rfl)]
    rw [writeNumField_other _ d "arbeitskosten_35a" (fun b v => { b with paragraph35aAnteil := some v }) Beleg.steuerKategorie (fun _ _ => rfl)]
    rw [writeNumField_other _ d "mwst_betrag" (fun b v => { b with mwstBetrag := some v }) Beleg.steuerKategorie (fun _ _ => rfl)]
    rw [writeNumField_other _ d "mwst_satz" (fun b v => { b with mwstSatz := some v }) Beleg.steuerKategorie (fun _ _ => rfl)]
    rw [writeNumField_other _ d "betrag_netto" (fun b v => { b with betragNetto := some v }) Beleg.steuerKategorie (fun _ _ => rfl)]
    rw [writeNumField_other _ d "betrag_brutto" (fun b v => { b with betragBrutto := some v }) Beleg.steuerKategorie (fun _ _ => rfl)]
    rw [writeStrField_other _ d "bu_schluessel" (fun b v => { b with buSchluessel := some v }) Beleg.steuerKategorie (fun _ _ => rfl)]
    rw [writeStrField_other _ d "skr03_bezeichnung" (fun b v => { b with skr03Bezeichnung := some v }) Beleg.steuerKategorie (fun _ _ => rfl)]
    rw [writeStrField_other _ d "skr03_konto" (fun b v => { b with skr03Konto := some v }) Beleg.steuerKategorie (fun _ _ => rfl)]
    rw [writeStrField_skip _ d "steuer_kategorie" (fun b v => { b with steuerKategorie := some v }) h]
    rw [writeStrField_other _ d "datum_beleg" (fun b v => { b with datumBeleg := some v }) Beleg.steuerKategorie (fun _ _ => rfl)]
    rw [writeStrField_other _ d "rechnungsnummer" (fun b v => { b with rechnungsnummer := some v }) Beleg.steuerKategorie (fun _ _ => rfl)]
    rw [writeStrField_other _ d "beschreibung" (fun b v => { b with beschreibung := some v }) Beleg.steuerKategorie (fun _ _ => rfl)]
    rw [writeStrField_other _ d "aussteller" (fun b v => { b with aussteller := some v }) Beleg.steuerKategorie (fun _ _ => rfl)]
    rw [writeStrField_other _ d "beleg_typ" (fun b v => { b with belegTyp := some v }) Beleg.steuerKategorie (fun _ _ => rfl)]
  · intro h
    simp only [mapFields]
    rw [setDefaultGegenkonto_other _ Beleg.skr03Konto (fun _ => rfl)]
    rw [writeNumField_other _ d "materialkosten" (fun b v => { b with materialkosten := some v }) Beleg.skr03Konto (fun _ _ => rfl)]
    rw [writeNumField_other _ d "arbeitskosten_35a" (fun b v => { b with paragraph35aAnteil := some v }) Beleg.skr03Konto (fun _ _ => rfl)]
    rw [writeNumField_other _ d "mwst_betrag" (fun b v => { b with mwstBetrag := some v }) Beleg.skr03Konto (fun _ _ => rfl)]
    rw [writeNumField_other _ d "mwst_satz" (fun b v => { b with mwstSatz := some v }) Beleg.skr03Konto (fun _ _ => rfl)]
    rw [writeNumField_other _ d "betrag_netto" (fun b v => { b with betragNetto := some v }) Beleg.skr03Konto (fun _ _ => rfl)]
    rw [writeNumField_other _ d "betrag_brutto" (fun b v => { b with betragBrutto := some v }) Beleg.skr03Konto (fun _ _ => rfl)]
    rw [writeStrField_other _ d "bu_schluessel" (fun b v => { b with buSchluessel := some v }) Beleg.skr03Konto (fun _ _ => rfl)]
    rw [writeStrField_other _ d "skr03_bezeichnung" (fun b v => { b with skr03Bezeichnung := some v }) Beleg.skr03Konto (fun _ _ => rfl)]
    rw [writeStrField_skip _ d "skr03_konto" (fun b v => { b with skr03Konto := some v }) h]
    rw [writeStrField_other _ d "steuer_kategorie" (fun b v => { b with steuerKategorie := some v }) Beleg.skr03Konto (fun _ _ => rfl)]
    rw [writeStrField_other _ d "datum_beleg" (fun b v => { b with datumBeleg := some v }) Beleg.skr03Konto (fun _ _ => rfl)]
    rw [writeStrField_other _ d "rechnungsnummer" (fun b v => { b with rechnungsnummer := some v }) Beleg.skr03Konto (fun _ _ => rfl)]
    rw [writeStrField_other _ d "beschreibung" (fun b v => { b with beschreibung := some v }) Beleg.skr03Konto (fun _ _ => rfl)]
    rw [writeStrField_other _ d "aussteller" (fun b v => { b with aussteller := some v }) Beleg.skr03Konto (fun _ _ => rfl)]
    rw [writeStrField_other _ d "beleg_typ" (fun b v => { b with belegTyp := some v }) Beleg.skr03Konto (fun _ _ => rfl)]
  · intro h
    simp only [mapFields]
    rw [setDefaultGegenkonto_other _ Beleg.skr03Bezeichnung (fun _ => rfl)]
    rw [writeNumField_other _ d "materialkosten" (fun b v => { b with materialkosten := some v }) Beleg.skr03Bezeichnung (fun _ _ => rfl)]
    rw [writeNumField_other _ d "arbeitskosten_35a" (fun b v => { b with paragraph35aAnteil := some v }) Beleg.skr03Bezeichnung (fun _ _ => rfl)]
    rw [writeNumField_other _ d "mwst_betrag" (fun b v => { b with mwstBetrag := some v }) Beleg.skr03Bezeichnung (fun _ _ => rfl)]
    rw [writeNumField_other _ d "mwst_satz" (fun b v => { b with mwstSatz := some v }) Beleg.skr03Bezeichnung (fun _ _ => rfl)]
    rw [writeNumField_other _ d "betrag_netto" (fun b v => { b with betragNetto := some v }) Beleg.skr03Bezeichnung (fun _ _ => rfl)]
    rw [writeNumField_other _ d "betrag_brutto" (fun b v => { b with betragBrutto := some v }) Beleg.skr03Bezeichnung (fun _ _ => rfl)]
    rw [writeStrField_other _ d "bu_schluessel" (fun b v => { b with buSchluessel := some v }) Beleg.skr03Bezeichnung (fun _ _ => rfl)]
    rw [writeStrField_skip _ d "skr03_bezeichnung" (fun b v => { b with skr03Bezeichnung := some v }) h]
    rw [writeStrField_other _ d "skr03_konto" (fun b v => { b with skr03Konto := some v }) Beleg.skr03Bezeichnung (fun _ _ => rfl)]
    rw [writeStrField_other _ d "steuer_kategorie" (fun b v => { b with steuerKategorie := some v }) Beleg.skr03Bezeichnung (fun _ _ => rfl)]
    rw [writeStrField_other _ d "datum_beleg" (fun b v => { b with datumBeleg := some v }) Beleg.skr03Bezeichnung (fun _ _ => rfl)]
    rw [writeStrField_other _ d "rechnungsnummer" (fun b v => { b with rechnungsnummer := some v }) Beleg.skr03Bezeichnung (fun _ _ => rfl)]
    rw [writeStrField_other _ d "beschreibung" (fun b v => { b with beschreibung := some v }) Beleg.skr03Bezeichnung (fun _ _ => rfl)]
    rw [writeStrField_other _ d "aussteller" (fun b v => { b with aussteller := some v }) Beleg.skr03Bezeichnung (fun _ _ => rfl)]
    rw [writeStrField_other _ d "beleg_typ" (fun b v => { b with belegTyp := some v }) Beleg.skr03Bezeichnung (fun _ _ => rfl)]
  · intro h
    simp only [mapFields]
    rw [setDefaultGegenkonto_other _ Beleg.buSchluessel (fun _ => rfl)]
    rw [writeNumField_other _ d "materialkosten" (fun b v => { b with materialkosten := some v }) Beleg.buSchluessel (fun _ _ => rfl)]
    rw [writeNumField_other _ d "arbeitskosten_35a" (fun b v => { b with paragraph35aAnteil := some v }) Beleg.buSchluessel (fun _ _ => rfl)]
    rw [writeNumField_other _ d "mwst_betrag" (fun b v => { b with mwstBetrag := some v }) Beleg.buSchluessel (fun _ _ => rfl)]
    rw [writeNumField_other _ d "mwst_satz" (fun b v => { b with mwstSatz := some v }) Beleg.buSchluessel (fun _ _ => rfl)]
    rw [writeNumField_other _ d "betrag_netto" (fun b v => { b with betragNetto := some v }) Beleg.buSchluessel (fun _ _ => rfl)]
    rw [writeNumField_other _ d "betrag_brutto" (fun b v => { b with betragBrutto := some v }) Beleg.buSchluessel (fun _ _ => rfl)]
    rw [writeStrField_skip _ d "bu_schluessel" (fun b v => { b with buSchluessel := some v }) h]
    rw [writeStrField_other _ d "skr03_bezeichnung" (fun b v => { b with skr03Bezeichnung := some v }) Beleg.buSchluessel (fun _ _ => rfl)]
    rw [writeStrField_other _ d "skr03_konto" (fun b v => { b with skr03Konto := some v }) Beleg.buSchluessel (fun _ _ => rfl)]
    rw [writeStrField_other _ d "steuer_kategorie" (fun b v => { b with steuerKategorie := some v }) Beleg.buSchluessel (fun _ _ => rfl)]
    rw [writeStrField_other _ d "datum_beleg" (fun b v => { b with datumBeleg := some v }) Beleg.buSchluessel (fun _ _ => rfl)]
    rw [writeStrField_other _ d "rechnungsnummer" (fun b v => { b with rechnungsnummer := some v }) Beleg.buSchluessel (fun _ _ => rfl)]
    rw [writeStrField_other _ d "beschreibung" (fun b v => { b with beschreibung := some v }) Beleg.buSchluessel (fun _ _ => rfl)]
    rw [writeStrField_other _ d "aussteller" (fun b v => { b with aussteller := some v }) Beleg.buSchluessel (fun _ _ => rfl)]
    rw [writeStrField_other _ d "beleg_typ" (fun b v => { b with belegTyp := some v }) Beleg.buSchluessel (fun _ _ => rfl)]
  · intro h
    simp only [mapFields]
    rw [setDefaultGegenkonto_other _ Beleg.betragNetto (fun _ => rfl)]
    rw [writeNumField_other _ d "materialkosten" (fun b v => { b with materialkosten := some v }) Beleg.betragNetto (fun _ _ => rfl)]
    rw [writeNumField_other _ d "arbeitskosten_35a" (fun b v => { b with paragraph35aAnteil := some v }) Beleg.betragNetto (fun _ _ => rfl)]
    rw [writeNumField_other _ d "mwst_betrag" (fun b v => { b with mwstBetrag := some v }) Beleg.betragNetto (fun _ _ => rfl)]
    rw [writeNumField_other _ d "mwst_satz" (fun b v => { b with mwstSatz := some v }) Beleg.betragNetto (fun _ _ => rfl)]
    rw [writeNumField_skip _ d "betrag_netto" (fun b v => { b with betragNetto := some v }) h]
    rw [writeNumField_other _ d "betrag_brutto" (fun b v => { b with betragBrutto := some v }) Beleg.betragNetto (fun _ _ => rfl)]
    rw [writeStrField_other _ d "bu_schluessel" (fun b v => { b with buSchluessel := some v }) Beleg.betragNetto (fun _ _ => rfl)]
    rw [writeStrField_other _ d "skr03_bezeichnung" (fun b v => { b with skr03Bezeichnung := some v }) Beleg.betragNetto (fun _ _ => rfl)]
    rw [writeStrField_other _ d "skr03_konto" (fun b v => { b with skr03Konto := some v }) Beleg.betragNetto (fun _ _ => rfl)]
    rw [writeStrField_other _ d "steuer_kategorie" (fun b v => { b with steuerKategorie := some v }) Beleg.betragNetto (fun _ _ => rfl)]
    rw [writeStrField_other _ d "datum_beleg" (fun b v => { b with datumBeleg := some v }) Beleg.betragNetto (fun _ _ => rfl)]
    rw [writeStrField_other _ d "rechnungsnummer" (fun b v => { b with rechnungsnummer := some v }) Beleg.betragNetto (fun _ _ => rfl)]
    rw [writeStrField_other _ d "beschreibung" (fun b v => { b with beschreibung := some v }) Beleg.betragNetto (fun _ _ => rfl)]
    rw [writeStrField_other _ d "aussteller" (fun b v => { b with aussteller := some v }) Beleg.betragNetto (fun _ _ => rfl)]
    rw [writeStrField_other _ d "beleg_typ" (fun b v => { b with belegTyp := some v }) Beleg.betragNetto (fun _ _ => rfl)]
  · intro h
    simp only [mapFields]
    rw [setDefaultGegenkonto_other _ Beleg.mwstSatz (fun _ => rfl)]
    rw [writeNumField_other _ d "materialkosten" (fun b v => { b with materialkosten := some v }) Beleg.mwstSatz (fun _ _ => rfl)]
    rw [writeNumField_other _ d "arbeitskosten_35a" (fun b v => { b with paragraph35aAnteil := some v }) Beleg.mwstSatz (fun _ _ => rfl)]
    rw [writeNumField_other _ d "mwst_betrag" (fun b v => { b with mwstBetrag := some v }) Beleg.mwstSatz (fun _ _ => rfl)]
    rw [writeNumField_skip _ d "mwst_satz" (fun b v => { b with mwstSatz := some v }) h]
    rw [writeNumField_other _ d "betrag_netto" (fun b v => { b with betragNetto := some v }) Beleg.mwstSatz (fun _ _ => rfl)]
    rw [writeNumField_other _ d "betrag_brutto" (fun b v => { b with betragBrutto := some v }) Beleg.mwstSatz (fun _ _ => rfl)]
    rw [writeStrField_other _ d "bu_schluessel" (fun b v => { b with buSchluessel := some v }) Beleg.mwstSatz (fun _ _ => rfl)]
    rw [writeStrField_other _ d "skr03_bezeichnung" (fun b v => { b with skr03Bezeichnung := some v }) Beleg.mwstSatz (fun _ _ => rfl)]
    rw [writeStrField_other _ d "skr03_konto" (fun b v => { b with skr03Konto := some v }) Beleg.mwstSatz (fun _ _ => rfl)]
    rw [writeStrField_other _ d "steuer_kategorie" (fun b v => { b with steuerKategorie := some v }) Beleg.mwstSatz (fun _ _ => rfl)]
    rw [writeStrField_other _ d "datum_beleg" (fun b v => { b with datumBeleg := some v }) Beleg.mwstSatz (fun _ _ => rfl)]
    rw [writeStrField_other _ d "rechnungsnummer" (fun b v => { b with rechnungsnummer := some v }) Beleg.mwstSatz (fun _ _ => rfl)]
    rw [writeStrField_other _ d "beschreibung" (fun b v => { b with beschreibung := some v }) Beleg.mwstSatz (fun _ _ => rfl)]
    rw [writeStrField_other _ d "aussteller" (fun b v => { b with aussteller := some v }) Beleg.mwstSatz (fun _ _ => rfl)]
    rw [writeStrField_other _ d "beleg_typ" (fun b v => { b with belegTyp := some v }) Beleg.mwstSatz (fun _ _ => rfl)]
  · intro h
    simp only [mapFields]
    rw [setDefaultGegenkonto_other _ Beleg.mwstBetrag (fun _ => rfl)]
    rw [writeNumField_other _ d "materialkosten" (fun b v => { b with materialkosten := some v }) Beleg.mwstBetrag (fun _ _ => rfl)]
    rw [writeNumField_other _ d "arbeitskosten_35a" (fun b v => { b with paragraph35aAnteil := some v }) Beleg.mwstBetrag (fun _ _ => rfl)]
    rw [writeNumField_skip _ d "mwst_betrag" (fun b v => { b with mwstBetrag := some v }) h]
    rw [writeNumField_other _ d "mwst_satz" (fun b v => { b with mwstSatz := some v }) Beleg.mwstBetrag (fun _ _ => rfl)]
    rw [writeNumField_other _ d "betrag_netto" (fun b v => { b with betragNetto := some v }) Beleg.mwstBetrag (fun _ _ => rfl)]
    rw [writeNumField_other _ d "betrag_brutto" (fun b v => { b with betragBrutto := some v }) Beleg.mwstBetrag (fun _ _ => rfl)]
    rw [writeStrField_other _ d "bu_schluessel" (fun b v => { b with buSchluessel := some v }) Beleg.mwstBetrag (fun _ _ => rfl)]
    rw [writeStrField_other _ d "skr03_bezeichnung" (fun b v => { b with skr03Bezeichnung := some v }) Beleg.mwstBetrag (fun _ _ => rfl)]
    rw [writeStrField_other _ d "skr03_konto" (fun b v => { b with skr03Konto := some v }) Beleg.mwstBetrag (fun _ _ => rfl)]
    rw [writeStrField_other _ d "steuer_kategorie" (fun b v => { b with steuerKategorie := some v }) Beleg.mwstBetrag (fun _ _ => rfl)]
    rw [writeStrField_other _ d "datum_beleg" (fun b v => { b with datumBeleg := some v }) Beleg.mwstBetrag (fun _ _ => rfl)]
    rw [writeStrField_other _ d "rechnungsnummer" (fun b v => { b with rechnungsnummer := some v }) Beleg.mwstBetrag (fun _ _ => rfl)]
    rw [writeStrField_other _ d "beschreibung" (fun b v => { b with beschreibung := some v }) Beleg.mwstBetrag (fun _ _ => rfl)]
    rw [writeStrField_other _ d "aussteller" (fun b v => { b with aussteller := some v }) Beleg.mwstBetrag (fun _ _ => rfl)]
    rw [writeStrField_other _ d "beleg_typ" (fun b v => { b with belegTyp := some v }) Beleg.mwstBetrag (fun _ _ => rfl)]
  · intro h
    simp only [mapFields]
    rw [setDefaultGegenkonto_other _ Beleg.paragraph35aAnteil (fun _ => rfl)]
    rw [writeNumField_other _ d "materialkosten" (fun b v => { b with materialkosten := some v }) Beleg.paragraph35aAnteil (fun _ _ => rfl)]
    rw [writeNumField_skip _ d "arbeitskosten_35a" (fun b v => { b with paragraph35aAnteil := some v }) h]
    rw [writeNumField_other _ d "mwst_betrag" (fun b v => { b with mwstBetrag := some v }) Beleg.paragraph35aAnteil (fun _ _ => rfl)]
    rw [writeNumField_other _ d "mwst_satz" (fun b v => { b with mwstSatz := some v }) Beleg.paragraph35aAnteil (fun _ _ => rfl)]
    rw [writeNumField_other _ d "betrag_netto" (fun b v => { b with betragNetto := some v }) Beleg.paragraph35aAnteil (fun _ _ => rfl)]
    rw [writeNumField_other _ d "betrag_brutto" (fun b v => { b with betragBrutto := some v }) Beleg.paragraph35aAnteil (fun _ _ => rfl)]
    rw [writeStrField_other _ d "bu_schluessel" (fun b v => { b with buSchluessel := some v }) Beleg.paragraph35aAnteil (fun _ _ => rfl)]
    rw [writeStrField_other _ d "skr03_bezeichnung" (fun b v => { b with skr03Bezeichnung := some v }) Beleg.paragraph35aAnteil (fun _ _ => rfl)]
    rw [writeStrField_other _ d "skr03_konto" (fun b v => { b with skr03Konto := some v }) Beleg.paragraph35aAnteil (fun _ _ => rfl)]
    rw [writeStrField_other _ d "steuer_kategorie" (fun b v => { b with steuerKategorie := some v }) Beleg.paragraph35aAnteil (fun _ _ => rfl)]
    rw [writeStrField_other _ d "datum_beleg" (fun b v => { b with datumBeleg := some v }) Beleg.paragraph35aAnteil (fun _ _ => rfl)]
    rw [writeStrField_other _ d "rechnungsnummer" (fun b v => { b with rechnungsnummer := some v }) Beleg.paragraph35aAnteil (fun _ _ => rfl)]
    rw [writeStrField_other _ d "beschreibung" (fun b v => { b with beschreibung := some v }) Beleg.paragraph35aAnteil (fun _ _ => rfl)]
    rw [writeStrField_other _ d "aussteller" (fun b v => { b with aussteller := some v }) Beleg.paragraph35aAnteil (fun _ _ => rfl)]
    rw [writeStrField_other _ d "beleg_typ" (fun b v => { b with belegTyp := some v }) Beleg.paragraph35aAnteil (fun _ _ => rfl)]
  · intro h
    simp only [mapFields]
    rw [setDefaultGegenkonto_other _ Beleg.materialkosten (fun _ => rfl)]
    rw [writeNumField_skip _ d "materialkosten" (fun b v => { b with materialkosten := some v }) h]
    rw [writeNumField_other _ d "arbeitskosten_35a" (fun b v => { b with paragraph35aAnteil := some v }) Beleg.materialkosten (fun _ _ => rfl)]
    rw [writeNumField_other _ d "mwst_betrag" (fun b v => { b with mwstBetrag := some v }) Beleg.materialkosten (fun _ _ => rfl)]
    rw [writeNumField_other _ d "mwst_satz" (fun b v => { b with mwstSatz := some v }) Beleg.materialkosten (fun _ _ => rfl)]
    rw [writeNumField_other _ d "betrag_netto" (fun b v => { b with betragNetto := some v }) Beleg.materialkosten (fun _ _ => rfl)]
    rw [writeNumField_other _ d "betrag_brutto" (fun b v => { b with betragBrutto := some v }) Beleg.materialkosten (fun _ _ => rfl)]
    rw [writeStrField_other _ d "bu_schluessel" (fun b v => { b with buSchluessel := some v }) Beleg.materialkosten (fun _ _ => rfl)]
    rw [writeStrField_other _ d "skr03_bezeichnung" (fun b v => { b with skr03Bezeichnung := some v }) Beleg.materialkosten (fun _ _ => rfl)]
    rw [writeStrField_other _ d "skr03_konto" (fun b v => { b with skr03Konto := some v }) Beleg.materialkosten (fun _ _ => rfl)]
    rw [writeStrField_other _ d "steuer_kategorie" (fun b v => { b with steuerKategorie := some v }) Beleg.materialkosten (fun _ _ => rfl)]
    rw [writeStrField_other _ d "datum_beleg" (fun b v => { b with datumBeleg := some v }) Beleg.materialkosten (fun _ _ => rfl)]
    rw [writeStrField_other _ d "rechnungsnummer" (fun b v => { b with rechnungsnummer := some v }) Beleg.materialkosten (fun _ _ => rfl)]
    rw [writeStrField_other _ d "beschreibung" (fun b v => { b with beschreibung := some v }) Beleg.materialkosten (fun _ _ => rfl)]
    rw [writeStrField_other _ d "aussteller" (fun b v => { b with aussteller := some v }) Beleg.materialkosten (fun _ _ => rfl)]
    rw [writeStrField_other _ d "beleg_typ" (fun b v => { b with belegTyp := some v }) Beleg.materialkosten (fun _ _ => rfl)]

/-! ### Min/max lemmas for the bbox union (C5) -/

theorem foldl_min_le_init (rest : List Nat) : ∀ x, rest.foldl Nat.min x ≤ x := by
  induction rest with
  | nil => intro x; exact le_refl x
  | cons a r ih =>
    intro x
    simp only [List.foldl_cons]
    exact le_trans (ih (Nat.min x a)) (Nat.min_le_left x a)

theorem foldl_min_le_mem (rest : List Nat) : ∀ x y, y ∈ rest →
    rest.foldl Nat.min x ≤ y := by
  induction rest with
  | nil => intro x y hy; simp at hy
  | cons a r ih =>
    intro x y hy
    simp only [List.foldl_cons]
    rcases List.mem_cons.mp hy with rfl | hy2
    · exact le_trans (foldl_min_le_init r (Nat.min x y)) (Nat.min_le_right x y)
    · exact ih (Nat.min x a) y hy2

theorem listMin_le (l : List Nat) (x : Nat) (hx : x ∈ l) : listMin l ≤ x := by
  cases l with
  | nil => simp at hx
  | cons a r =>
    rcases List.mem_cons.mp hx with rfl | hx2
    · exact foldl_min_le_init r x
    · exact foldl_min_le_mem r a x hx2

theorem foldl_min_mem (rest : List Nat) : ∀ x, rest.foldl Nat.min x ∈ x :: rest := by
  induction rest with
  | nil => intro x; simp
  | cons a r ih =>
    intro x
    simp only [List.foldl_cons]
    have h := ih (Nat.min x a)
    rcases List.mem_cons.mp h with heq | hmem
    · rw [heq]
      rcases Nat.le_total x a with hle | hle
      · have hx : x.min a = x := min_eq_left hle
        rw [hx]; exact List.mem_cons_self _ _
      · have hx : x.min a = a := min_eq_right hle
        rw [hx]; exact List.mem_cons_of_mem _ (List.mem_cons_self _ _)
    · exact List.mem_cons_of_mem _ (List.mem_cons_of_mem _ hmem)

theorem listMin_mem (l : List Nat) (h : l ≠ []) : listMin l ∈ l := by
  cases l with
  | nil => exact absurd rfl h
  | cons a r => exact foldl_min_mem r a

theorem init_le_foldl_max (rest : List Nat) : ∀ x, x ≤ rest.foldl Nat.max x := by
  induction rest with
  | nil => intro x; exact le_refl x
  | cons a r ih =>
    intro x
    simp only [List.foldl_cons]
    exact le_trans (Nat.le_max_left x a) (ih (Nat.max x a))

theorem mem_le_foldl_max (rest : List Nat) : ∀ x y, y ∈ rest →
    y ≤ rest.foldl Nat.max x := by
  induction rest with
  | nil => intro x y hy; simp at hy
  | cons a r ih =>
    intro x y hy
    simp only [List.foldl_cons]
    rcases List.mem_cons.mp hy with rfl | hy2
    · exact le_trans (Nat.le_max_right x y) (init_le_foldl_max r (Nat.max x y))
    · exact ih (Nat.max x a) y hy2

theorem le_listMax (l : List Nat) (x : Nat) (hx : x ∈ l) : x ≤ listMax l := by
  cases l with
  | nil => simp at hx
  | cons a r =>
    rcases List.mem_cons.mp hx with rfl | hx2
    · exact init_le_foldl_max r x
    · exact mem_le_foldl_max r a x hx2

/-- Witness for C10: a gross amount whose value is the string "null" leaves
the gross-amount column untouched. -/
theorem claim_C10_witness :
    falsyOrNullString
      (pyGet [(("betrag_brutto" : String), PyVal.s "null".toList)] "betrag_brutto") ∧
    (mapFields
      ⟨"hochgeladen", none, none, none, none, none, none, none, none, none, none,
        none, none, none, none, none, none, none, none, none, none, none⟩
      [(("betrag_brutto" : String), PyVal.s "null".toList)]).betragBrutto =
    (⟨"hochgeladen", none, none, none, none, none, none, none, none, none, none,
        none, none, none, none, none, none, none, none, none, none, none⟩ :
      Beleg).betragBrutto :=
  ⟨Or.inr (Or.inr (Or.inr (by decide))),
   (claim_C10_falsy_values_leave_columns
     ⟨"hochgeladen", none, none, none, none, none, none, none, none, none, none,
       none, none, none, none, none, none, none, none, none, none, none⟩
     [(("betrag_brutto" : String), PyVal.s "null".toList)]).1
     (Or.inr (Or.inr (Or.inr (by decide))))⟩

/-! ### C5: bbox positivity and page uniformity -/

/-- C5 counterexample.  With a zero-width word on page 1 and a word on page 2,
the enricher gives the first span a bbox of width 0 (refuting `bbox.w > 0`),
and the second span — which overlaps the page-2 word — a bbox on page 1
(refuting "the bbox's page equals the page of every overlapping word"). -/
theorem claim_C5_counterexample :
    (enrichSpans
        (some [⟨1, 100, 100, [⟨"Abc".toList, 5, 5, 0, 0, 90, 0, 3⟩]⟩,
               ⟨2, 100, 100, [⟨"De".toList, 10, 10, 5, 5, 90, 4, 6⟩]⟩])
        [⟨0, 3, "Abc".toList, "aussteller", none⟩,
         ⟨0, 6, "AbcDe".toList, "betrag_brutto", none⟩] =
      [⟨0, 3, "Abc".toList, "aussteller", some ⟨5, 5, 0, 0, 1⟩⟩,
       ⟨0, 6, "AbcDe".toList, "betrag_brutto", some ⟨5, 5, 10, 10, 1⟩⟩]) ∧
    (⟨"De".toList, 10, 10, 5, 5, 90, 4, 6, 2⟩ : FlatWord) ∈
      matchingWords
        (flattenWords
          [⟨1, 100, 100, [⟨"Abc".toList, 5, 5, 0, 0, 90, 0, 3⟩]⟩,
           ⟨2, 100, 100, [⟨"De".toList, 10, 10, 5, 5, 90, 4, 6⟩]⟩])
        ⟨0, 6, "AbcDe".toList, "betrag_brutto", none⟩ := by
  decide

theorem enrichOne_bbox_spec (allWords : List FlatWord) (s : Span) (pg : Nat)
    (hne : matchingWords allWords s ≠ [])
    (hpos : ∀ w ∈ matchingWords allWords s, 0 < w.w ∧ 0 < w.h)
    (hpg : ∀ w ∈ matchingWords allWords s, w.page = pg) :
    ∃ bb : BBoxG, enrichOne allWords s = { s with bbox := some bb } ∧
      0 < bb.w ∧ 0 < bb.h ∧ bb.page = pg := by
  cases hm : matchingWords allWords s with
  | nil => exact absurd hm hne
  | cons m rest =>
    have hmem : m ∈ matchingWords allWords s := by
      rw [hm]; exact List.mem_cons_self _ _
    refine ⟨⟨listMin ((m :: rest).map (·.x)), listMin ((m :: rest).map (·.y)),
      listMax ((m :: rest).map fun w => w.x + w.w) -
        listMin ((m :: rest).map (·.x)),
      listMax ((m :: rest).map fun w => w.y + w.h) -
        listMin ((m :: rest).map (·.y)),
      m.page⟩, ?_, ?_, ?_, hpg m hmem⟩
    · unfold enrichOne
      rw [hm]
    · dsimp only
      have h1 : listMin ((m :: rest).map (·.x)) ∈ (m :: rest).map (·.x) :=
        listMin_mem _ (by simp)
      obtain ⟨w0, hw0, he⟩ := List.mem_map.mp h1
      have he2 : w0.x = listMin ((m :: rest).map (·.x)) := he
      have hmem0 : w0 ∈ matchingWords allWords s := by rw [hm]; exact hw0
      have hpw := (hpos w0 hmem0).1
      have hle : w0.x + w0.w ≤ listMax ((m :: rest).map fun w => w.x + w.w) :=
        le_listMax _ _ (List.mem_map_of_mem _ hw0)
      omega
    · dsimp only
      have h1 : listMin ((m :: rest).map (·.y)) ∈ (m :: rest).map (·.y) :=
        listMin_mem _ (by simp)
      obtain ⟨w0, hw0, he⟩ := List.mem_map.mp h1
      have he2 : w0.y = listMin ((m :: rest).map (·.y)) := he
      have hmem0 : w0 ∈ matchingWords allWords s := by rw [hm]; exact hw0
      have hph := (hpos w0 hmem0).2
      have hle : w0.y + w0.h ≤ listMax ((m :: rest).map fun w => w.y + w.h) :=
        le_listMax _ _ (List.mem_map_of_mem _ hw0)
      omega

/-- C5 (amended): when OCR data is present with at least one word, a span with
at least one overlapping word receives a bbox; if every overlapping word has
strictly positive width and height and all overlapping words lie on one page
`pg`, then the bbox has strictly positive width and height and its page is
`pg`.  (Unamended, the claim is false: a zero-width word yields a bbox with
`w = 0`, and when the overlapping words span several pages the bbox takes the
FIRST overlapping word's page, see the counterexample.) -/
theorem claim_C5_bbox_positive_same_page
    (pages : List PageG) (spans : List Span) (i : Nat) (s : Span) (pg : Nat)
    (hget : spans.get? i = some s)
    (hwords : flattenWords pages ≠ [])
    (hne : matchingWords (flattenWords pages) s ≠ [])
    (hpos : ∀ w ∈ matchingWords (flattenWords pages) s, 0 < w.w ∧ 0 < w.h)
    (hpg : ∀ w ∈ matchingWords (flattenWords pages) s, w.page = pg) :
    ∃ bb : BBoxG,
      (enrichSpans (some pages) spans).get? i =
        some { s with bbox := some bb } ∧
      0 < bb.w ∧ 0 < bb.h ∧ bb.page = pg := by
  obtain ⟨bb, hbb, hw, hh, hp⟩ :=
    enrichOne_bbox_spec (flattenWords pages) s pg hne hpos hpg
  refine ⟨bb, ?_, hw, hh, hp⟩
  unfold enrichSpans
  dsimp only
  have hemp : (flattenWords pages).isEmpty = false := by
    cases hw2 : flattenWords pages with
    | nil => exact absurd hw2 hwords
    | cons a l => rfl
  simp only [hemp, Bool.false_eq_true, if_false]
  rw [List.get?_map, hget]
  show some (enrichOne (flattenWords pages) s) = _
  rw [hbb]

/-- Witness for C5: a single positive-size word on page 1 overlapping the
span yields a bbox with positive width and height on page 1. -/
theorem claim_C5_witness :
    ∃ bb : BBoxG,
      (enrichSpans (some [⟨1, 100, 100, [⟨"Hi".toList, 5, 6, 7, 8, 90, 0, 2⟩]⟩])
          [⟨0, 2, "Hi".toList, "aussteller", none⟩]).get? 0 =
        some { (⟨0, 2, "Hi".toList, "aussteller", none⟩ : Span) with
                 bbox := some bb } ∧
      0 < bb.w ∧ 0 < bb.h ∧ bb.page = 1 :=
  claim_C5_bbox_positive_same_page
    [⟨1, 100, 100, [⟨"Hi".toList, 5, 6, 7, 8, 90, 0, 2⟩]⟩]
    [⟨0, 2, "Hi".toList, "aussteller", none⟩] 0
    ⟨0, 2, "Hi".toList, "aussteller", none⟩ 1
    rfl (by decide) (by decide) (by decide) (by decide)

/-! ### C2: behaviour of the pipeline when every LLM call fails -/

/-- C2 counterexample.  With both LLM calls raising (HTTP non-2xx, timeout or
unreachable), the receipt ends in state `extrahiert`, NOT `fehler`; no note is
recorded in `pruefnotiz`; the default counter-account 1200 IS written; and no
in-extractor retry happens after an HTTP error: a hypothetical second call
that would parse successfully is never consulted. -/
theorem claim_C2_counterexample :
    ((runExtractionPhase
        ⟨"ocr_fertig", none, none, none, none, none, none, none, none, none,
         none, none, none, none, none, none, none, none, none, none, none, none⟩
        "Rechnung 12 Euro".toList none 0 false false 0
        CallOutcome.exn CallOutcome.exn none).status = "extrahiert") ∧
    ((runExtractionPhase
        ⟨"ocr_fertig", none, none, none, none, none, none, none, none, none,
         none, none, none, none, none, none, none, none, none, none, none, none⟩
        "Rechnung 12 Euro".toList none 0 false false 0
        CallOutcome.exn CallOutcome.exn none).pruefnotiz = none) ∧
    ((runExtractionPhase
        ⟨"ocr_fertig", none, none, none, none, none, none, none, none, none,
         none, none, none, none, none, none, none, none, none, none, none, none⟩
        "Rechnung 12 Euro".toList none 0 false false 0
        CallOutcome.exn CallOutcome.exn none).gegenkonto = some "1200".toList) ∧
    (extractWithOllama "Rechnung 12 Euro".toList CallOutcome.exn
        (CallOutcome.parsedSome [(("aussteller" : String), PyVal.s "Obi".toList)]) =
      fehlerResult) := by
  refine ⟨rfl, rfl, by decide, rfl⟩

theorem extractBeleg_of_fail (ocrText : List Char) (ocrData : Option (List PageG))
    (ocrConf : ℚ) (hip hvm : Bool) (vt : ℚ) (o₁ o₂ : CallOutcome) (mth : String)
    (h : extractWithOllama ocrText o₁ o₂ = ⟨[], [], mth, "niedrig"⟩) :
    extractBeleg ocrText ocrData ocrConf hip hvm vt o₁ o₂ none =
      ⟨[], [], mth, "niedrig"⟩ := by
  unfold extractBeleg
  rw [h]
  dsimp only
  rw [ite_self]
  dsimp only
  simp only [List.isEmpty_nil, Bool.not_true, Bool.and_false, Bool.false_eq_true,
    if_false]
  rfl

/-- C2 (amended): when every LLM call fails — an exception (unreachable,
timeout, HTTP non-2xx) or unparseable JSON on both attempts — and the vision
pass yields nothing, the pipeline does NOT move the receipt to state `fehler`
and records no note: `extract_with_ollama` swallows every error, the receipt
ends in state `extrahiert` with empty extracted data, empty spans and
confidence `niedrig`; the only structured column written is the default
counter-account 1200.  The method is `fehler` if some call raised, and
`ollama_direkt` when both merely failed to parse; the in-extractor retry
happens only after a parse failure, never after an HTTP error (see the
counterexample). -/
theorem claim_C2_llm_failure_swallowed (b : Beleg) (ocrText : List Char)
    (ocrData : Option (List PageG)) (ocrConf : ℚ) (hip hvm : Bool) (vt : ℚ)
    (o₁ o₂ : CallOutcome)
    (h₁ : o₁ = CallOutcome.exn ∨ o₁ = CallOutcome.parsedNone)
    (h₂ : o₂ = CallOutcome.exn ∨ o₂ = CallOutcome.parsedNone) :
    ∃ mth : String,
      (mth = "fehler" ∨ mth = "ollama_direkt") ∧
      runExtractionPhase b ocrText ocrData ocrConf hip hvm vt o₁ o₂ none =
        { b with
            status := "extrahiert"
            gegenkonto := if !optStrTruthy b.gegenkonto then some "1200".toList
                          else b.gegenkonto
            extrahierteDaten := some []
            quellreferenzen := some []
            extraktionMethode := some mth
            extraktionKonfidenz := some "niedrig" } := by
  have hres : ∃ mth : String, (mth = "fehler" ∨ mth = "ollama_direkt") ∧
      extractWithOllama ocrText o₁ o₂ = ⟨[], [], mth, "niedrig"⟩ := by
    rcases h₁ with rfl | rfl
    · exact ⟨"fehler", Or.inl rfl, rfl⟩
    · rcases h₂ with rfl | rfl
      · exact ⟨"fehler", Or.inl rfl, rfl⟩
      · exact ⟨"ollama_direkt", Or.inr rfl, rfl⟩
  obtain ⟨mth, hmth, hres⟩ := hres
  refine ⟨mth, hmth, ?_⟩
  unfold runExtractionPhase extractionPhase
  rw [extractBeleg_of_fail ocrText ocrData ocrConf hip hvm vt o₁ o₂ mth hres]
  dsimp only
  have hmap : ∀ b₁ : Beleg, mapFields b₁ [] = setDefaultGegenkonto b₁ :=
    fun _ => rfl
  rw [hmap]
  unfold setDefaultGegenkonto
  dsimp only
  cases hg : optStrTruthy b.gegenkonto <;> rfl

/-- Witness for C2: a receipt whose two LLM calls raise and fail to parse
respectively ends in state `extrahiert` with the default counter-account. -/
theorem claim_C2_witness :
    ∃ mth : String,
      (mth = "fehler" ∨ mth = "ollama_direkt") ∧
      runExtractionPhase
        ⟨"ocr_fertig", none, none, none, none, none, none, none, none, none,
         none, none, none, none, none, none, none, none, none, none, none, none⟩
        "Rechnung 12 Euro".toList none 0 false false 0
        CallOutcome.exn CallOutcome.parsedNone none =
        { (⟨"ocr_fertig", none, none, none, none, none, none, none, none, none,
            none, none, none, none, none, none, none, none, none, none, none,
            none⟩ : Beleg) with
            status := "extrahiert"
            gegenkonto := if !optStrTruthy (none : Option (List Char)) then
                            some "1200".toList
                          else (none : Option (List Char))
            extrahierteDaten := some []
            quellreferenzen := some []
            extraktionMethode := some mth
            extraktionKonfidenz := some "niedrig" } :=
  claim_C2_llm_failure_swallowed
    ⟨"ocr_fertig", none, none, none, none, none, none, none, none, none,
     none, none, none, none, none, none, none, none, none, none, none, none⟩
    "Rechnung 12 Euro".toList none 0 false false 0
    CallOutcome.exn CallOutcome.parsedNone
    (Or.inl rfl) (Or.inr rfl)

/-! ### C7: tie-breaking of the fuzzy sliding window -/

theorem dice04 : diceScore [('a','a'),('a','b')] (strSlice "aaaaab".toList 0 4) =
    some (2/3) := by
  show some ((2:ℚ) * ((1:ℕ):ℚ) / (((2:ℕ):ℚ) + ((1:ℕ):ℚ))) = some (2/3)
  norm_num

theorem dice15 : diceScore [('a','a'),('a','b')] (strSlice "aaaaab".toList 1 5) =
    some (2/3) := by
  show some ((2:ℚ) * ((1:ℕ):ℚ) / (((2:ℕ):ℚ) + ((1:ℕ):ℚ))) = some (2/3)
  norm_num

theorem dice26 : diceScore [('a','a'),('a','b')] (strSlice "aaaaab".toList 2 6) =
    some 1 := by
  show some ((2:ℚ) * ((2:ℕ):ℚ) / (((2:ℕ):ℚ) + ((2:ℕ):ℚ))) = some 1
  norm_num

theorem dice05 : diceScore [('a','a'),('a','b')] (strSlice "aaaaab".toList 0 5) =
    some (2/3) := by
  show some ((2:ℚ) * ((1:ℕ):ℚ) / (((2:ℕ):ℚ) + ((1:ℕ):ℚ))) = some (2/3)
  norm_num

theorem dice16 : diceScore [('a','a'),('a','b')] (strSlice "aaaaab".toList 1 6) =
    some 1 := by
  show some ((2:ℚ) * ((2:ℕ):ℚ) / (((2:ℕ):ℚ) + ((2:ℕ):ℚ))) = some 1
  norm_num

theorem dice06 : diceScore [('a','a'),('a','b')] (strSlice "aaaaab".toList 0 6) =
    some 1 := by
  show some ((2:ℚ) * ((2:ℕ):ℚ) / (((2:ℕ):ℚ) + ((2:ℕ):ℚ))) = some 1
  norm_num

theorem stepA1 : fuzzyStep "aaaaab".toList [('a','a'),('a','b')]
    (((0:ℚ), none) : ℚ × Option (Nat × Nat)) (0, 4) = ((2/3 : ℚ), some (0, 4)) := by
  unfold fuzzyStep
  dsimp only
  rw [dice04]
  dsimp only
  rw [if_pos (show (0:ℚ) < 2/3 by norm_num)]

theorem stepA2 : fuzzyStep "aaaaab".toList [('a','a'),('a','b')]
    (((2/3 : ℚ), some (0, 4)) : ℚ × Option (Nat × Nat)) (1, 5) =
    ((2/3 : ℚ), some (0, 4)) := by
  unfold fuzzyStep
  dsimp only
  rw [dice15]
  dsimp only
  rw [if_neg (show ¬((2/3 : ℚ) < 2/3) by norm_num)]

theorem stepA3 : fuzzyStep "aaaaab".toList [('a','a'),('a','b')]
    (((2/3 : ℚ), some (0, 4)) : ℚ × Option (Nat × Nat)) (2, 6) =
    ((1 : ℚ), some (2, 6)) := by
  unfold fuzzyStep
  dsimp only
  rw [dice26]
  dsimp only
  rw [if_pos (show (2/3 : ℚ) < 1 by norm_num)]

theorem stepA4 : fuzzyStep "aaaaab".toList [('a','a'),('a','b')]
    (((1 : ℚ), some (2, 6)) : ℚ × Option (Nat × Nat)) (0, 5) =
    ((1 : ℚ), some (2, 6)) := by
  unfold fuzzyStep
  dsimp only
  rw [dice05]
  dsimp only
  rw [if_neg (show ¬((1 : ℚ) < 2/3) by norm_num)]

theorem stepA5 : fuzzyStep "aaaaab".toList [('a','a'),('a','b')]
    (((1 : ℚ), some (2, 6)) : ℚ × Option (Nat × Nat)) (1, 6) =
    ((1 : ℚ), some (2, 6)) := by
  unfold fuzzyStep
  dsimp only
  rw [dice16]
  dsimp only
  rw [if_neg (show ¬((1 : ℚ) < 1) by norm_num)]

theorem stepA6 : fuzzyStep "aaaaab".toList [('a','a'),('a','b')]
    (((1 : ℚ), some (2, 6)) : ℚ × Option (Nat × Nat)) (0, 6) =
    ((1 : ℚ), some (2, 6)) := by
  unfold fuzzyStep
  dsimp only
  rw [dice06]
  dsimp only
  rw [if_neg (show ¬((1 : ℚ) < 1) by norm_num)]

theorem foldA : ([((0:ℕ), (4:ℕ)), (1, 5), (2, 6), (0, 5), (1, 6), (0, 6)]).foldl
    (fuzzyStep "aaaaab".toList [('a','a'),('a','b')])
    (((0:ℚ), none) : ℚ × Option (Nat × Nat)) = ((1 : ℚ), some (2, 6)) := by
  rw [List.foldl_cons, stepA1, List.foldl_cons, stepA2, List.foldl_cons, stepA3,
    List.foldl_cons, stepA4, List.foldl_cons, stepA5, List.foldl_cons, stepA6,
    List.foldl_nil]

/-- On the text `aaaaab` with the quote `aaaab`, the sliding window returns
`(2, 6)`: the size-4 window at start 2, although the size-5 window `(1, 6)`
ties at Dice score 1 with an earlier start. -/
theorem fuzzy_aaaaab :
    fuzzySlideMatch "aaaaab".toList "aaaab".toList (4/5) = some (2, 6) := by
  have htL : pyLower "aaaaab".toList = "aaaaab".toList := by decide
  have hqB : bigrams (pyLower "aaaab".toList) = [('a','a'),('a','b')] := by decide
  have hcw : candWindows "aaaaab".toList.length
      (windowSizes "aaaaab".toList.length "aaaab".toList.length) =
      [((0:ℕ), (4:ℕ)), (1, 5), (2, 6), (0, 5), (1, 6), (0, 6)] := by decide
  unfold fuzzySlideMatch
  dsimp only
  rw [if_neg (by decide)]
  rw [if_neg (by decide)]
  rw [htL, hqB, hcw, foldA]
  dsimp only
  rw [if_pos ⟨show (4/5 : ℚ) ≤ 1 by norm_num, rfl⟩]

/-- C7 counterexample.  On the text `aaaaab` with the quote `aaaab`
(threshold 0.80), window `(1, 6)` attains the best Dice score 1 with start 1,
yet the code returns `(2, 6)` with the LATER start 2 (and the smaller size 4):
the outer loop iterates window sizes ascending, so size takes priority over
start position, refuting "the window with the earliest start position is
returned". -/
theorem claim_C7_counterexample :
    fuzzySlideMatch "aaaaab".toList "aaaab".toList (4/5) = some (2, 6) ∧
    ((1, 6) ∈ candWindows "aaaaab".toList.length
      (windowSizes "aaaaab".toList.length "aaaab".toList.length)) ∧
    diceScore (bigrams (pyLower "aaaab".toList))
      (strSlice (pyLower "aaaaab".toList) 1 6) = some 1 ∧
    diceScore (bigrams (pyLower "aaaab".toList))
      (strSlice (pyLower "aaaaab".toList) 2 6) = some 1 ∧
    (4/5 : ℚ) ≤ 1 ∧ (1 : Nat) < 2 := by
  refine ⟨fuzzy_aaaaab, by decide, ?_, ?_, by norm_num, by decide⟩
  · show some ((2:ℚ) * ((2:ℕ):ℚ) / (((2:ℕ):ℚ) + ((2:ℕ):ℚ))) = some 1
    norm_num
  · show some ((2:ℚ) * ((2:ℕ):ℚ) / (((2:ℕ):ℚ) + ((2:ℕ):ℚ))) = some 1
    norm_num

theorem fuzzyFold_spec (tL : List Char) (qB : List (Char × Char)) :
    ∀ (l : List (Nat × Nat)) (st : ℚ × Option (Nat × Nat)),
      st.1 ≤ (l.foldl (fuzzyStep tL qB) st).1 ∧
      (∀ x ∈ l, ∀ r : ℚ, diceScore qB (strSlice tL x.1 x.2) = some r →
        r ≤ (l.foldl (fuzzyStep tL qB) st).1) ∧
      (l.foldl (fuzzyStep tL qB) st = st ∨
       ∃ i c, l.get? i = some c ∧
         (l.foldl (fuzzyStep tL qB) st).2 = some c ∧
         diceScore qB (strSlice tL c.1 c.2) =
           some (l.foldl (fuzzyStep tL qB) st).1 ∧
         st.1 < (l.foldl (fuzzyStep tL qB) st).1 ∧
         (∀ j x, j < i → l.get? j = some x → ∀ r : ℚ,
           diceScore qB (strSlice tL x.1 x.2) = some r →
           r < (l.foldl (fuzzyStep tL qB) st).1)) := by
  intro l
  induction l with
  | nil =>
    intro st
    refine ⟨le_refl _, ?_, Or.inl rfl⟩
    intro x hx
    cases hx
  | cons a l ih =>
    intro st
    rw [List.foldl_cons]
    obtain ⟨ih1, ih2, ih3⟩ := ih (fuzzyStep tL qB st a)
    cases hsa : diceScore qB (strSlice tL a.1 a.2) with
    | none =>
      have hfa : fuzzyStep tL qB st a = st := by
        unfold fuzzyStep
        rw [hsa]
      rw [hfa] at ih1 ih2 ih3 ⊢
      refine ⟨ih1, ?_, ?_⟩
      · intro x hx r hr
        rcases List.mem_cons.mp hx with rfl | hx2
        · rw [hsa] at hr; cases hr
        · exact ih2 x hx2 r hr
      · rcases ih3 with h | ⟨i, c, hgi, hr2, hsc, hlt, hbef⟩
        · exact Or.inl h
        · refine Or.inr ⟨i + 1, c, ?_, hr2, hsc, hlt, ?_⟩
          · rw [List.get?_cons_succ]; exact hgi
          · intro j x hj hgj r hr
            cases j with
            | zero =>
              rw [List.get?_cons_zero] at hgj
              cases hgj
              rw [hsa] at hr
              cases hr
            | succ j2 =>
              rw [List.get?_cons_succ] at hgj
              exact hbef j2 x (by omega) hgj r hr
    | some ra =>
      by_cases hlt : st.1 < ra
      · have hfa : fuzzyStep tL qB st a = (ra, some a) := by
          unfold fuzzyStep
          rw [hsa]
          dsimp only
          rw [if_pos hlt]
        rw [hfa] at ih1 ih2 ih3 ⊢
        dsimp only at ih1
        refine ⟨le_trans (le_of_lt hlt) ih1, ?_, ?_⟩
        · intro x hx r hr
          rcases List.mem_cons.mp hx with rfl | hx2
          · rw [hsa] at hr
            cases hr
            exact ih1
          · exact ih2 x hx2 r hr
        · rcases ih3 with h | ⟨i, c, hgi, hr2, hsc, hlt2, hbef⟩
          · rw [h]
            refine Or.inr ⟨0, a, List.get?_cons_zero, rfl, ?_, hlt, ?_⟩
            · rw [hsa]
            · intro j x hj hgj r hr
              exact absurd hj (Nat.not_lt_zero j)
          · dsimp only at hlt2
            refine Or.inr ⟨i + 1, c, ?_, hr2, hsc, lt_trans hlt hlt2, ?_⟩
            · rw [List.get?_cons_succ]; exact hgi
            · intro j x hj hgj r hr
              cases j with
              | zero =>
                rw [List.get?_cons_zero] at hgj
                cases hgj
                rw [hsa] at hr
                cases hr
                exact hlt2
              | succ j2 =>
                rw [List.get?_cons_succ] at hgj
                exact hbef j2 x (by omega) hgj r hr
      · have hfa : fuzzyStep tL qB st a = st := by
          unfold fuzzyStep
          rw [hsa]
          dsimp only
          rw [if_neg hlt]
        rw [hfa] at ih1 ih2 ih3 ⊢
        refine ⟨ih1, ?_, ?_⟩
        · intro x hx r hr
          rcases List.mem_cons.mp hx with rfl | hx2
          · rw [hsa] at hr
            cases hr
            exact le_trans (le_of_not_lt hlt) ih1
          · exact ih2 x hx2 r hr
        · rcases ih3 with h | ⟨i, c, hgi, hr2, hsc, hlt2, hbef⟩
          · exact Or.inl h
          · refine Or.inr ⟨i + 1, c, ?_, hr2, hsc, hlt2, ?_⟩
            · rw [List.get?_cons_succ]; exact hgi
            · intro j x hj hgj r hr
              cases j with
              | zero =>
                rw [List.get?_cons_zero] at hgj
                cases hgj
                rw [hsa] at hr
                cases hr
                exact lt_of_le_of_lt (le_of_not_lt hlt) hlt2
              | succ j2 =>
                rw [List.get?_cons_succ] at hgj
                exact hbef j2 x (by omega) hgj r hr

theorem windowSizes_pairwise (tlen qlen : Nat) :
    List.Pairwise (· < ·) (windowSizes tlen qlen) := by
  have hs : List.Pairwise (· ≤ ·) (windowSizes tlen qlen) :=
    List.sorted_insertionSort _ _
  have hnd : (windowSizes tlen qlen).Nodup :=
    (List.perm_insertionSort _ _).nodup_iff.mpr (List.nodup_dedup _)
  exact (hs.and hnd).imp fun h => lt_of_le_of_ne h.1 h.2

theorem mem_candWindows (tlen : Nat) (sizes : List Nat) (x : Nat × Nat) :
    x ∈ candWindows tlen sizes ↔
      ∃ ws ∈ sizes, ¬ ws > tlen ∧ ∃ i < tlen - ws + 1, x = (i, i + ws) := by
  unfold candWindows
  rw [List.mem_bind]
  constructor
  · rintro ⟨ws, hws, hx⟩
    by_cases hgt : ws > tlen
    · rw [if_pos hgt] at hx; cases hx
    · rw [if_neg hgt] at hx
      obtain ⟨i, hi, rfl⟩ := List.mem_map.mp hx
      exact ⟨ws, hws, hgt, i, List.mem_range.mp hi, rfl⟩
  · rintro ⟨ws, hws, hgt, i, hi, rfl⟩
    refine ⟨ws, hws, ?_⟩
    rw [if_neg hgt]
    exact List.mem_map_of_mem _ (List.mem_range.mpr hi)

theorem candWindows_pairwise (tlen : Nat) :
    ∀ sizes : List Nat, List.Pairwise (· < ·) sizes →
      List.Pairwise windowLex (candWindows tlen sizes) := by
  intro sizes
  induction sizes with
  | nil =>
    intro _
    exact List.Pairwise.nil
  | cons ws rest ih =>
    intro hp
    have hcons : candWindows tlen (ws :: rest) =
        (if ws > tlen then [] else
          (List.range (tlen - ws + 1)).map fun i => (i, i + ws)) ++
        candWindows tlen rest := rfl
    rw [hcons, List.pairwise_append]
    obtain ⟨hhead, htail⟩ := List.pairwise_cons.mp hp
    refine ⟨?_, ih htail, ?_⟩
    · by_cases hgt : ws > tlen
      · rw [if_pos hgt]; exact List.Pairwise.nil
      · rw [if_neg hgt]
        refine List.pairwise_map.mpr ?_
        refine (List.pairwise_lt_range _).imp ?_
        intro i j hij
        exact Or.inr ⟨by dsimp only; omega, hij⟩
    · intro a ha b hb
      have ha2 : a.2 - a.1 = ws := by
        by_cases hgt : ws > tlen
        · rw [if_pos hgt] at ha; cases ha
        · rw [if_neg hgt] at ha
          obtain ⟨i, _, rfl⟩ := List.mem_map.mp ha
          dsimp only; omega
      obtain ⟨ws2, hws2, _, j, _, rfl⟩ := (mem_candWindows tlen rest b).mp hb
      have hlt2 : ws < ws2 := hhead ws2 hws2
      exact Or.inl (by dsimp only; omega)

/-- C7 (amended): the fuzzy tier returns a candidate window attaining the
maximal Dice score among all candidates, with the threshold met; among
windows attaining the same maximal score the returned one is minimal in the
ITERATION order — window SIZE ascending first, then start position — so the
smaller window wins, and the earliest start breaks ties only among windows of
equal size.  (Unamended, the claim is false: the source's outer loop iterates
window sizes, so size priority beats start priority, see the
counterexample.) -/
theorem claim_C7_tie_break_window_size_first (ocrText quote : List Char)
    (threshold : ℚ) (s e : Nat)
    (hr : fuzzySlideMatch ocrText quote threshold = some (s, e)) :
    ((s, e) ∈ candWindows ocrText.length
      (windowSizes ocrText.length quote.length)) ∧
    ∃ rmax : ℚ,
      diceScore (bigrams (pyLower quote)) (strSlice (pyLower ocrText) s e) =
        some rmax ∧
      threshold ≤ rmax ∧
      ∀ c ∈ candWindows ocrText.length (windowSizes ocrText.length quote.length),
        ∀ r : ℚ,
        diceScore (bigrams (pyLower quote))
          (strSlice (pyLower ocrText) c.1 c.2) = some r →
        r ≤ rmax ∧ (r = rmax → c = (s, e) ∨ windowLex (s, e) c) := by
  unfold fuzzySlideMatch at hr
  dsimp only at hr
  by_cases h1 : quote.length < 5 ∨ ocrText.length < quote.length
  · rw [if_pos h1] at hr; cases hr
  rw [if_neg h1] at hr
  by_cases h2 : (bigrams (pyLower quote)).isEmpty = true
  · rw [if_pos h2] at hr; cases hr
  rw [if_neg h2] at hr
  obtain ⟨hf1, hf2, hf3⟩ := fuzzyFold_spec (pyLower ocrText)
    (bigrams (pyLower quote))
    (candWindows ocrText.length (windowSizes ocrText.length quote.length))
    (((0:ℚ), none) : ℚ × Option (Nat × Nat))
  rcases hE : (candWindows ocrText.length
      (windowSizes ocrText.length quote.length)).foldl
      (fuzzyStep (pyLower ocrText) (bigrams (pyLower quote)))
      (((0:ℚ), none) : ℚ × Option (Nat × Nat)) with ⟨best, pos⟩
  rw [hE] at hr hf1 hf2 hf3
  dsimp only at hr hf1 hf2 hf3
  by_cases h3 : threshold ≤ best ∧ pos.isSome = true
  swap
  · rw [if_neg h3] at hr; cases hr
  rw [if_pos h3] at hr
  rcases hf3 with heq | ⟨i, c, hgi, hr2, hsc, hpos, hbef⟩
  · have hpn : pos = none := congrArg Prod.snd heq
    rw [hpn] at hr
    cases hr
  · rw [hr2] at hr
    injection hr with hce
    subst hce
    dsimp only at hsc
    refine ⟨List.get?_mem hgi, best, hsc, h3.1, ?_⟩
    intro c2 hmem r hscr
    refine ⟨hf2 c2 hmem r hscr, ?_⟩
    intro hrbest
    obtain ⟨j, hgj⟩ := List.get?_of_mem hmem
    rcases lt_trichotomy j i with hji | hji | hji
    · have hlt3 := hbef j c2 hji hgj r hscr
      rw [hrbest] at hlt3
      exact absurd hlt3 (lt_irrefl best)
    · subst hji
      rw [hgi] at hgj
      injection hgj with hc2
      exact Or.inl hc2.symm
    · have hpw := candWindows_pairwise ocrText.length
        (windowSizes ocrText.length quote.length)
        (windowSizes_pairwise ocrText.length quote.length)
      obtain ⟨hi2, hgi2⟩ := List.get?_eq_some.mp hgi
      obtain ⟨hj2, hgj2⟩ := List.get?_eq_some.mp hgj
      have hrel := List.pairwise_iff_get.mp hpw ⟨i, hi2⟩ ⟨j, hj2⟩ hji
      rw [hgi2, hgj2] at hrel
      exact Or.inr hrel

/-- Witness for C7: the text `aaaaab` with quote `aaaab` — the returned
window `(2, 6)` attains the maximal score, and every other window tying the
maximum follows it in the (size, start) iteration order. -/
theorem claim_C7_witness :
    ((2, 6) ∈ candWindows "aaaaab".toList.length
      (windowSizes "aaaaab".toList.length "aaaab".toList.length)) ∧
    ∃ rmax : ℚ,
      diceScore (bigrams (pyLower "aaaab".toList))
        (strSlice (pyLower "aaaaab".toList) 2 6) = some rmax ∧
      (4/5 : ℚ) ≤ rmax ∧
      ∀ c ∈ candWindows "aaaaab".toList.length
          (windowSizes "aaaaab".toList.length "aaaab".toList.length),
        ∀ r : ℚ,
        diceScore (bigrams (pyLower "aaaab".toList))
          (strSlice (pyLower "aaaaab".toList) c.1 c.2) = some r →
        r ≤ rmax ∧ (r = rmax → c = (2, 6) ∨ windowLex (2, 6) c) :=
  claim_C7_tie_break_window_size_first "aaaaab".toList "aaaab".toList (4/5) 2 6
    fuzzy_aaaaab

end Steuer
